import Mathlib

/-!
# The chat widget of `AgentChat.jsx` and the handlers of `ClientsPage.jsx`

A shallow embedding of the handlers of the chat widget
(src/front/src/components/AgentChat.jsx), of the platform functions they call and of
the handlers of the client page (src/front/src/pages/ClientsPage.jsx) that the
specification speaks of, followed by the properties of the specification that concern
them.

Conventions of the embedding:

* JavaScript strings are lists of Unicode scalar values (`Text`).  Every string
  operation the handler uses (`split('\n')`, `trim`, `startsWith('data: ')`,
  `slice(6)` after that prefix, `+=`) acts in the same way on scalar values and on
  UTF-16 code units.
* `JSON.parse` is a parameter `parse : Text → Option Json` (`none`: it throws).
* `new Date().toISOString()` reads a clock `clock : Nat → Text`; the state counts
  the reads, so the k-th read of a run yields `clock k`.
* React state is threaded explicitly; the values a handler closes over
  (`messages`, `sessionId`, `isOpen` of the render that created it) are passed
  as a separate snapshot `rendered`.
-/

namespace AgentChat

/-- A JavaScript string. -/
abbrev Text := List Char

/-! ## JSON values as the handler observes them -/

/-- A value returned by `JSON.parse`.  A number is identified by the text that
`String(n)` yields: `"0"` for both zeros, `"Infinity"` and `"-Infinity"` for a literal
beyond the range of a double such as `1e999` (and `"NaN"`, which no JSON text yields).
The properties of an object are listed in the object's own enumeration order, one
entry per key. -/
inductive Json where
  | null
  | bool (b : Bool)
  | num (repr : Text)
  | str (s : Text)
  | arr (items : List Json)
  | obj (props : List (Text × Json))

instance : Inhabited Json := ⟨Json.null⟩

/-- JavaScript truthiness of a JSON value. -/
def Json.truthy : Json → Bool
  | .null => false
  | .bool b => b
  | .num r => r != "0".toList && r != "NaN".toList
  | .str s => !s.isEmpty
  | .arr _ => true
  | .obj _ => true

/-- Truthiness of the result of a property read (`none` is `undefined`). -/
def truthy? : Option Json → Bool
  | none => false
  | some v => v.truthy

/-- The read `v.k` for one of the keys the handler reads (`session_id`, `type`,
`content`, `tool_name`, `tool_args`, `message`) on a non-null value: an own property
of an object, `undefined` on every other value. -/
def Json.prop : Json → Text → Option Json
  | .obj ps, k => ps.lookup k
  | _, _ => none

/-- The comparison `x === 'literal'`. -/
def strictEq (x : Option Json) (lit : Text) : Bool :=
  match x with
  | some (.str s) => s == lit
  | _ => false

/-- The expression `x || fallback` with a string literal as fallback. -/
def orElse (x : Option Json) (fallback : Text) : Json :=
  match x with
  | some v => if v.truthy then v else .str fallback
  | none => .str fallback

/-- Whether an object has an own property `k`. -/
def hasKey (ps : List (Text × Json)) (k : Text) : Bool :=
  ps.any fun p => p.1 == k

mutual
/-- String conversion of a value in `text + v` and in a template literal
(`none`: a TypeError is thrown).  Arrays are joined with commas, a plain object
gives `[object Object]`, and an object whose own `toString` property shadows the
inherited method cannot be converted. -/
def Json.toText : Json → Option Text
  | .null => some "null".toList
  | .bool true => some "true".toList
  | .bool false => some "false".toList
  | .num r => some r
  | .str s => some s
  | .arr xs => joinItems xs
  | .obj ps => if hasKey ps "toString".toList then none else some "[object Object]".toList
/-- The method `Array.prototype.join(',')` on the items of a parsed array: `null` items give the
empty string. -/
def joinItems : List Json → Option Text
  | [] => some []
  | x :: xs =>
    match itemText x, xs with
    | none, _ => none
    | some a, [] => some a
    | some a, _ :: _ =>
      match joinItems xs with
      | none => none
      | some b => some (a ++ ',' :: b)
/-- Text of one array item inside `join`. -/
def itemText : Json → Option Text
  | .null => some []
  | .bool true => some "true".toList
  | .bool false => some "false".toList
  | .num r => some r
  | .str s => some s
  | .arr xs => joinItems xs
  | .obj ps => if hasKey ps "toString".toList then none else some "[object Object]".toList
end

/-- Lower-case hexadecimal digit. -/
def hexDigit (n : Nat) : Char :=
  if n < 10 then Char.ofNat (48 + n) else Char.ofNat (87 + n)

/-- The escape of one character in `QuoteJSONString`. -/
def quoteChar (c : Char) : Text :=
  if c = '\x08' then "\\b".toList
  else if c = '\t' then "\\t".toList
  else if c = '\n' then "\\n".toList
  else if c = '\x0c' then "\\f".toList
  else if c = '\r' then "\\r".toList
  else if c = '"' then "\\\"".toList
  else if c = '\\' then "\\\\".toList
  else if c.toNat < 32 then
    "\\u00".toList ++ [hexDigit (c.toNat / 16), hexDigit (c.toNat % 16)]
  else [c]

/-- The operation `QuoteJSONString`. -/
def quoteJson (s : Text) : Text :=
  '"' :: (s.flatMap quoteChar ++ ['"'])

/-- Whether the number with text `r` is not finite (`Infinity`, `-Infinity`, `NaN`). -/
def isNonFinite (r : Text) : Bool :=
  r == "Infinity".toList || r == "-Infinity".toList || r == "NaN".toList

/-- Indentation of nesting depth `d` for a gap of two spaces. -/
def indent (d : Nat) : Text := List.replicate (2 * d) ' '

mutual
/-- The call `JSON.stringify(v, null, 2)` at nesting depth `d`.  A finite number is
printed as `String(n)`, a number that is not finite as `null`. -/
def stringifyAt : Nat → Json → Text
  | _, .null => "null".toList
  | _, .bool true => "true".toList
  | _, .bool false => "false".toList
  | _, .num r => if isNonFinite r then "null".toList else r
  | _, .str s => quoteJson s
  | _, .arr [] => "[]".toList
  | d, .arr (x :: xs) =>
    '[' :: '\n' :: (indent (d + 1) ++ stringifyAt (d + 1) x ++ stringifyItems (d + 1) xs
      ++ '\n' :: (indent d ++ [']']))
  | _, .obj [] => "{}".toList
  | d, .obj (p :: ps) =>
    '{' :: '\n' :: (indent (d + 1) ++ quoteJson p.1 ++ ':' :: ' ' :: stringifyAt (d + 1) p.2
      ++ stringifyProps (d + 1) ps ++ '\n' :: (indent d ++ ['}']))
/-- The remaining items of an array, each after the separator. -/
def stringifyItems : Nat → List Json → Text
  | _, [] => []
  | d, x :: xs => ',' :: '\n' :: (indent d ++ stringifyAt d x ++ stringifyItems d xs)
/-- The remaining members of an object, each after the separator. -/
def stringifyProps : Nat → List (Text × Json) → Text
  | _, [] => []
  | d, p :: ps =>
    ',' :: '\n' :: (indent d ++ quoteJson p.1 ++ ':' :: ' ' :: stringifyAt d p.2
      ++ stringifyProps d ps)
end

/-- The call `JSON.stringify(v, null, 2)`. -/
def jsonStringify2 (v : Json) : Text := stringifyAt 0 v

/-! ## The platform's UTF-8 `TextDecoder` in streaming mode -/

/-- State of `new TextDecoder()` between `decode(value, { stream: true })` calls: the
variables of the UTF-8 decoder of the Encoding Standard and the decoder's
"BOM seen" flag. -/
structure Utf8State where
  codePoint : Nat
  bytesSeen : Nat
  bytesNeeded : Nat
  lower : Nat
  upper : Nat
  bomSeen : Bool
deriving DecidableEq, Repr

/-- A new decoder. -/
def Utf8State.init : Utf8State := ⟨0, 0, 0, 0x80, 0xBF, false⟩

/-- Appending one scalar value to the output: the first value of a stream is dropped
when it is the byte order mark. -/
def Utf8State.emit (st : Utf8State) (c : Char) : Utf8State × Text :=
  if st.bomSeen then (st, [c])
  else ({ st with bomSeen := true }, if c = Char.ofNat 0xFEFF then [] else [c])

/-- The decoder's handler on a byte when no sequence is in progress. -/
def utf8Lead (st : Utf8State) (b : Nat) : Utf8State × Text :=
  if b ≤ 0x7F then st.emit (Char.ofNat b)
  else if 0xC2 ≤ b ∧ b ≤ 0xDF then
    ({ st with bytesNeeded := 1, codePoint := b % 32 }, [])
  else if 0xE0 ≤ b ∧ b ≤ 0xEF then
    ({ st with lower := if b = 0xE0 then 0xA0 else st.lower,
               upper := if b = 0xED then 0x9F else st.upper,
               bytesNeeded := 2, codePoint := b % 16 }, [])
  else if 0xF0 ≤ b ∧ b ≤ 0xF4 then
    ({ st with lower := if b = 0xF0 then 0x90 else st.lower,
               upper := if b = 0xF4 then 0x8F else st.upper,
               bytesNeeded := 3, codePoint := b % 8 }, [])
  else st.emit (Char.ofNat 0xFFFD)

/-- The decoder's handler on one byte.  A byte that cannot continue the sequence in
progress yields U+FFFD and is then read again with the decoder reset. -/
def utf8Step (st : Utf8State) (b : Nat) : Utf8State × Text :=
  if st.bytesNeeded = 0 then utf8Lead st b
  else if b < st.lower ∨ st.upper < b then
    let r := ({ st with codePoint := 0, bytesSeen := 0, bytesNeeded := 0,
                        lower := 0x80, upper := 0xBF } : Utf8State).emit (Char.ofNat 0xFFFD)
    let r2 := utf8Lead r.1 b
    (r2.1, r.2 ++ r2.2)
  else if st.bytesSeen + 1 ≠ st.bytesNeeded then
    ({ st with lower := 0x80, upper := 0xBF, codePoint := st.codePoint * 64 + b % 64,
               bytesSeen := st.bytesSeen + 1 }, [])
  else
    ({ st with codePoint := 0, bytesSeen := 0, bytesNeeded := 0, lower := 0x80,
               upper := 0xBF } : Utf8State).emit (Char.ofNat (st.codePoint * 64 + b % 64))

/-- The call `decoder.decode(value, { stream: true })`: the new decoder state and the decoded
text.  A `Uint8Array` element is a number below 256. -/
def decodeChunk (st : Utf8State) : List Nat → Utf8State × Text
  | [] => (st, [])
  | b :: bs =>
    let r := utf8Step st b
    let r2 := decodeChunk r.1 bs
    (r2.1, r.2 ++ r2.2)

/-! ## String operations -/

/-- The call `text.split('\n')`. -/
def splitNewline : Text → List Text
  | [] => [[]]
  | c :: cs =>
    if c = '\n' then [] :: splitNewline cs
    else
      match splitNewline cs with
      | [] => [[c]]
      | l :: ls => (c :: l) :: ls

/-- The characters `String.prototype.trim` removes: WhiteSpace and LineTerminator. -/
def isJsSpace (c : Char) : Bool :=
  let n := c.toNat
  n == 0x09 || n == 0x0A || n == 0x0B || n == 0x0C || n == 0x0D || n == 0x20 || n == 0xA0
    || n == 0x1680 || (0x2000 ≤ n && n ≤ 0x200A) || n == 0x2028 || n == 0x2029
    || n == 0x202F || n == 0x205F || n == 0x3000 || n == 0xFEFF

/-- The call `text.trim()`. -/
def jsTrim (t : Text) : Text :=
  ((t.dropWhile isJsSpace).reverse.dropWhile isJsSpace).reverse

/-! ## The widget's state -/

inductive Role where
  | user
  | assistant
deriving DecidableEq, Repr

/-- One entry of `messages`.  `isStreaming` is `none` on an object without that
property. -/
structure Message where
  role : Role
  content : Json
  timestamp : Text
  isStreaming : Option Bool

inductive Mode where
  | stream
  | normal
deriving DecidableEq, Repr

/-- A call of `antMessage.error` or `antMessage.success` with its argument. -/
inductive Notice where
  | error (content : Json)
  | success (content : Json)

/-- The `useState` cells of `AgentChat`, together with the log of the notifications
raised so far and the number of clock reads so far.  An element `none` of `messages`
is a position of the array that holds `undefined`. -/
structure ChatState where
  isOpen : Bool
  messages : List (Option Message)
  inputValue : Text
  isLoading : Bool
  sessionId : Json
  mode : Mode
  unreadCount : Nat
  notices : List Notice
  ticks : Nat

/-- The state at mount. -/
def ChatState.initial : ChatState :=
  { isOpen := false, messages := [], inputValue := [], isLoading := false,
    sessionId := .null, mode := .stream, unreadCount := 0, notices := [], ticks := 0 }

/-- The update `setMessages(prev => [...prev, m])`. -/
def pushMessage (m : Message) (s : ChatState) : ChatState :=
  { s with messages := s.messages ++ [some m] }

/-- The assignment `newMessages[i] = m` on a copy of the array: a write past the end extends the
array, the positions in between holding `undefined`. -/
def setAt : List (Option Message) → Nat → Message → List (Option Message)
  | [], 0, m => [some m]
  | [], i + 1, m => none :: setAt [] i m
  | _ :: xs, 0, m => some m :: xs
  | x :: xs, i + 1, m => x :: setAt xs i m

/-- The update `setMessages(prev => { const newMessages = [...prev]; newMessages[idx] = {...};
return newMessages })` of lines 106-115, 125-134, 139-148 and 164-173. -/
def writeAssistant (clock : Nat → Text) (idx : Nat) (content : Text) (streaming : Bool)
    (s : ChatState) : ChatState :=
  { s with
    messages := setAt s.messages idx
      { role := .assistant, content := .str content, timestamp := clock s.ticks,
        isStreaming := some streaming }
    ticks := s.ticks + 1 }

/-- A call of `antMessage.error`. -/
def notifyError (c : Json) (s : ChatState) : ChatState :=
  { s with notices := s.notices ++ [.error c] }

/-! ## The body of the read loop -/

/-- The variables of `handleStreamResponse` that the `try` block of lines 92-159 reads
and writes, and the widget state. -/
structure Vars where
  assistantContent : Text
  newSessionId : Json
  ui : ChatState

/-- The variables together with the values `JSON.parse` has returned so far, in order
(`frames`, a trace that the handler does not read). -/
structure Acc where
  vars : Vars
  frames : List Json

/-- Lines 96-99. -/
def adoptSession (parsed : Json) (a : Vars) : Vars :=
  match parsed.prop "session_id".toList with
  | some v =>
    if v.truthy && !a.newSessionId.truthy then
      { a with newSessionId := v, ui := { a.ui with sessionId := v } }
    else a
  | none => a

/-- The new accumulated text and the `setMessages` call that follows it. -/
def accumulate (clock : Nat → Text) (idx : Nat) (content : Text) (a : Vars) : Vars :=
  { a with assistantContent := content, ui := writeAssistant clock idx content true a.ui }

/-- Lines 102-155: the dispatch on `parsed.type`.  A conversion that throws leaves the
`try` block before the assignment it is part of. -/
def dispatch (clock : Nat → Text) (idx : Nat) (parsed : Json) (a : Vars) : Vars :=
  let type := parsed.prop "type".toList
  if strictEq type "content".toList && truthy? (parsed.prop "content".toList) then
    match parsed.prop "content".toList with
    | some c =>
      match c.toText with
      | some t => accumulate clock idx (a.assistantContent ++ t) a
      | none => a
    | none => a
  else if strictEq type "tool_call".toList || strictEq type "tool_executing".toList then
    match (orElse (parsed.prop "tool_name".toList) "未知工具".toList).toText with
    | some toolName =>
      let called := a.assistantContent ++ ("\n\n🔧 正在调用工具: ".toList ++ toolName)
      match parsed.prop "tool_args".toList with
      | some args =>
        if args.truthy then
          accumulate clock idx (called ++ ("\n参数: ".toList ++ jsonStringify2 args)) a
        else accumulate clock idx called a
      | none => accumulate clock idx called a
    | none => a
  else if strictEq type "tool_result".toList then
    accumulate clock idx (a.assistantContent ++ "\n📊 工具执行完成\n\n".toList) a
  else if strictEq type "done".toList then a
  else if strictEq type "error".toList then
    { a with ui := notifyError (orElse (parsed.prop "message".toList) "发生错误".toList) a.ui }
  else a

/-- Lines 95-155 on a value `JSON.parse` returned.  Reading `session_id` of `null` throws,
which the `catch` of line 157 absorbs. -/
def applyFrame (clock : Nat → Text) (idx : Nat) (parsed : Json) (a : Vars) : Vars :=
  match parsed with
  | .null => a
  | v => dispatch clock idx v (adoptSession v a)

/-- Lines 81-90: the text handed to `JSON.parse` for a line, `none` when the line is
skipped by one of the two `continue` statements. -/
def payloadOf (line : Text) : Option Text :=
  let trimmedLine := jsTrim line
  if trimmedLine.isEmpty then none
  else
    let stripped :=
      if "data: ".toList.isPrefixOf trimmedLine then jsTrim (trimmedLine.drop 6)
      else trimmedLine
    if stripped.isEmpty then none else some stripped

/-- Lines 81-159: one iteration of `for (const line of lines)`. -/
def processLine (parse : Text → Option Json) (clock : Nat → Text) (idx : Nat)
    (a : Acc) (line : Text) : Acc :=
  match payloadOf line with
  | none => a
  | some payload =>
    match parse payload with
    | none => a
    | some parsed =>
      { vars := applyFrame clock idx parsed a.vars, frames := a.frames ++ [parsed] }

/-- The value `JSON.parse` returns for a line, `none` when the line is skipped or the
parse throws. -/
def lineFrame (parse : Text → Option Json) (line : Text) : Option Json :=
  match payloadOf line with
  | none => none
  | some payload => parse payload

/-- The effect of lines 95-155 on a sequence of parsed values, in order. -/
def applyFrames (clock : Nat → Text) (idx : Nat) (frames : List Json) (a : Vars) : Vars :=
  frames.foldl (fun acc v => applyFrame clock idx v acc) a

/-- The reader side of the loop: `buffer` and the decoder. -/
structure Rx where
  buffer : Text
  decoder : Utf8State

/-- The value of `lines.pop() || ''`. -/
def popOrEmpty (lines : List Text) : Text :=
  match lines.getLast? with
  | some l => if l.isEmpty then [] else l
  | none => []

/-- Lines 75-160 on the buffer extended by the decoded text: the retained fragment and the
effect of the complete lines. -/
def feedText (parse : Text → Option Json) (clock : Nat → Text) (idx : Nat)
    (buffer : Text) (a : Acc) (decoded : Text) : Text × Acc :=
  let lines := splitNewline (buffer ++ decoded)
  (popOrEmpty lines, lines.dropLast.foldl (processLine parse clock idx) a)

/-- Lines 71-160: one iteration of the read loop on a chunk `value`. -/
def processChunk (parse : Text → Option Json) (clock : Nat → Text) (idx : Nat)
    (st : Rx × Acc) (value : List Nat) : Rx × Acc :=
  let decoded := decodeChunk st.1.decoder value
  let fed := feedText parse clock idx st.1.buffer st.2 decoded.2
  ({ buffer := fed.1, decoder := decoded.1 }, fed.2)

/-! ## The transport -/

/-- How the body of a response ends: `read()` reports `done`, or a `read()` rejects. -/
inductive StreamEnd where
  | done
  | failed
deriving DecidableEq, Repr

/-- The chunks `reader.read()` delivers, in order, and what follows the last of them. -/
structure Body where
  chunks : List (List Nat)
  ending : StreamEnd

/-- The outcome of `agentAPI.chatStream(message, sessionId)`, which is the promise of
`fetch` itself (api.js, lines 173-186): it rejects when no response arrives and
resolves with the response otherwise, whatever its status.  `body` is `none` for a
response whose `body` is `null`. -/
inductive FetchResult where
  | rejected
  | response (status : Nat) (body : Option Body)

/-- The `ok` flag of a response. -/
def statusOk (status : Nat) : Bool := 200 ≤ status && status ≤ 299

/-! ## `handleStreamResponse` -/

/-- The locals of lines 63-65 and the fresh decoder of line 61. -/
def loopInit (rendered : ChatState) (s : ChatState) : Rx × Acc :=
  ({ buffer := [], decoder := Utf8State.init },
    { vars := { assistantContent := [], newSessionId := rendered.sessionId, ui := s },
      frames := [] })

/-- Lines 67-161: the read loop over the chunks of a body. -/
def readLoop (parse : Text → Option Json) (clock : Nat → Text) (idx : Nat)
    (chunks : List (List Nat)) (st : Rx × Acc) : Rx × Acc :=
  chunks.foldl (processChunk parse clock idx) st

/-- The text of a finalized assistant entry for the accumulated text `t`:
`assistantContent || '(无回复)'`. -/
def finalText (t : Text) : Text :=
  if t.isEmpty then "(无回复)".toList else t

/-- Lines 164-177: the final `setMessages` and the unread counter. -/
def finalize (clock : Nat → Text) (rendered : ChatState) (idx : Nat) (a : Vars) : ChatState :=
  let s := writeAssistant clock idx (finalText a.assistantContent) false a.ui
  if rendered.isOpen then s else { s with unreadCount := s.unreadCount + 1 }

/-- Lines 59-177, the `try` block: `.ok` with the state it ends in, or `.error` with the
state at the point where an exception leaves it (a rejected `fetch`, `getReader` on a
`null` body, a rejected `read`). -/
def tryBlock (parse : Text → Option Json) (clock : Nat → Text) (rendered : ChatState)
    (idx : Nat) (net : FetchResult) (s : ChatState) : Except ChatState ChatState :=
  match net with
  | .rejected => .error s
  | .response _ none => .error s
  | .response _ (some body) =>
    let st := readLoop parse clock idx body.chunks (loopInit rendered s)
    match body.ending with
    | .failed => .error st.2.vars.ui
    | .done => .ok (finalize clock rendered idx st.2.vars)

/-- Lines 179-183, the `catch` block. -/
def catchBlock (s : ChatState) : ChatState :=
  let s1 := notifyError (.str "对话失败，请重试".toList) s
  { s1 with messages := s1.messages.dropLast }

/-- Lines 39-56: the loading flag, the user message and the empty assistant message. -/
def beginExchange (clock : Nat → Text) (message : Text) (s : ChatState) : ChatState :=
  let s0 := { s with isLoading := true }
  let userMessage : Message :=
    { role := .user, content := .str message, timestamp := clock s0.ticks, isStreaming := none }
  let s1 := pushMessage userMessage { s0 with ticks := s0.ticks + 1 }
  pushMessage
    { role := .assistant, content := .str [], timestamp := clock s1.ticks,
      isStreaming := some true }
    { s1 with ticks := s1.ticks + 1 }

/-- The function `handleStreamResponse(message)` of the render whose state was `rendered`, run
on the current state `s` against the transport outcome `net`. -/
def handleStreamResponse (parse : Text → Option Json) (clock : Nat → Text)
    (rendered : ChatState) (message : Text) (net : FetchResult) (s : ChatState) : ChatState :=
  let assistantMessageIndex := rendered.messages.length + 1
  let s2 := beginExchange clock message s
  let s3 :=
    match tryBlock parse clock rendered assistantMessageIndex net s2 with
    | .ok s' => s'
    | .error s' => catchBlock s'
  { s3 with isLoading := false }

/-! ## `handleNormalResponse` and `handleClear` -/

/-- The expression `x || y || fallback` with a string literal as fallback. -/
def orElse2 (x y : Option Json) (fallback : Text) : Json :=
  match x with
  | some v => if v.truthy then v else orElse y fallback
  | none => orElse y fallback

/-- The error axios rejects with, as the response interceptor of api.js (lines 28-53)
reads it: `error.response?.data` (`none` when there is no response or it has no data) and
`error.message`.  The request of `agentAPI.chat` does not ask for a blob, so the data is
never a `Blob`. -/
structure AxiosError where
  data : Option Json
  message : Text

/-- The outcome of `agentAPI.chat(data)`, which is `api.post('/agent/chat', data)` behind the
interceptors of api.js: it rejects with the axios error (no response, a timeout, a status
outside 2xx) or resolves with `response.data`. -/
inductive ChatResult where
  | rejected (error : AxiosError)
  | resolved (data : Json)

/-- The error branch of the response interceptor (api.js, lines 28-53): one notification,
then the rejection is passed on. -/
def interceptError (e : AxiosError) (s : ChatState) : ChatState :=
  if truthy? e.data then
    match e.data with
    | some d =>
      notifyError (orElse2 (d.prop "message".toList) (d.prop "error".toList) "请求失败".toList) s
    | none => s
  else
    notifyError (if e.message.isEmpty then .str "网络错误".toList else .str e.message) s

/-- Lines 191-199 of AgentChat.jsx: the loading flag and the user message. -/
def beginNormal (clock : Nat → Text) (message : Text) (s : ChatState) : ChatState :=
  let s0 := { s with isLoading := true }
  pushMessage
    { role := .user, content := .str message, timestamp := clock s0.ticks, isStreaming := none }
    { s0 with ticks := s0.ticks + 1 }

/-- Lines 207-221 on the value `response` the request resolved with, which is not `null`: the
session, the assistant message and the unread counter. -/
def acceptResponse (clock : Nat → Text) (rendered : ChatState) (response : Json)
    (s : ChatState) : ChatState :=
  let s1 :=
    match response.prop "session_id".toList with
    | some v => if v.truthy && !rendered.sessionId.truthy then { s with sessionId := v } else s
    | none => s
  let s2 := pushMessage
    { role := .assistant
      content := orElse2 (response.prop "message".toList) (response.prop "response".toList)
        "抱歉，我没有理解".toList
      timestamp := clock s1.ticks
      isStreaming := none }
    { s1 with ticks := s1.ticks + 1 }
  if rendered.isOpen then s2 else { s2 with unreadCount := s2.unreadCount + 1 }

/-- Lines 201-221, the `try` block of `handleNormalResponse`: `.ok` with the state it ends in,
or `.error` with the state at the point where an exception leaves it (the rejected
request, after the interceptor's notification, or the read `response.session_id` on
`null`). -/
def tryNormal (clock : Nat → Text) (rendered : ChatState) (net : ChatResult)
    (s : ChatState) : Except ChatState ChatState :=
  match net with
  | .rejected e => .error (interceptError e s)
  | .resolved .null => .error s
  | .resolved response => .ok (acceptResponse clock rendered response s)

/-- The function `handleNormalResponse(message)` of the render whose state was `rendered`, run
on the current state `s` against the outcome `net` of the request.  Its `catch` block
(lines 223-227) is, statement for statement, the one of `handleStreamResponse`. -/
def handleNormalResponse (clock : Nat → Text) (rendered : ChatState) (message : Text)
    (net : ChatResult) (s : ChatState) : ChatState :=
  let s1 := beginNormal clock message s
  let s2 :=
    match tryNormal clock rendered net s1 with
    | .ok s' => s'
    | .error s' => catchBlock s'
  { s2 with isLoading := false }

/-- The object both handlers send as the request: `{ message, session_id: sessionId }`
(api.js, lines 181-184, and AgentChat.jsx, lines 202-205), with the `sessionId` of the
render. -/
def chatRequest (message : Text) (rendered : ChatState) : Json :=
  .obj [("message".toList, .str message), ("session_id".toList, rendered.sessionId)]

/-- Lines 248-252: `handleClear`. -/
def handleClear (s : ChatState) : ChatState :=
  let s1 := { s with messages := [], sessionId := Json.null }
  { s1 with notices := s1.notices ++ [.success (.str "对话已清空".toList)] }

/-- Lines 234-245: `handleSend` of the render whose state was `rendered`, run on the current
state `s`.  `streamNet` and `chatNet` are what the request of either mode would bring;
the handler issues the request of one mode only. -/
def handleSend (parse : Text → Option Json) (clock : Nat → Text) (rendered : ChatState)
    (streamNet : FetchResult) (chatNet : ChatResult) (s : ChatState) : ChatState :=
  if (jsTrim rendered.inputValue).isEmpty || rendered.isLoading then s
  else
    let message := jsTrim rendered.inputValue
    let s1 := { s with inputValue := [] }
    match rendered.mode with
    | .stream => handleStreamResponse parse clock rendered message streamNet s1
    | .normal => handleNormalResponse clock rendered message chatNet s1

/-! ## The widget between events -/

/-- The widget at a point where control is with the scheduler: no exchange is outstanding,
or `handleStreamResponse` of the render `rendered` is suspended in its read loop with the
variables `a`. -/
inductive Widget where
  | idle (s : ChatState)
  | streaming (rendered : ChatState) (a : Vars)

/-- The widget state a render shows. -/
def Widget.ui : Widget → ChatState
  | .idle s => s
  | .streaming _ a => a.ui

/-- What can happen next: the user sends `message` in streaming mode, a line of the body is
parsed to `parsed`, the body ends, a read rejects, the user clicks the clear button. -/
inductive Event where
  | send (message : Text)
  | frame (parsed : Json)
  | endOfStream
  | failure
  | clear

/-- Whether the clear button can be clicked (lines 325-333): the window is open and the
transcript is not empty.  The loading flag plays no part. -/
def clearEnabled (s : ChatState) : Bool :=
  s.isOpen && !s.messages.isEmpty

/-- Whether the send button can be clicked with `message` typed (lines 380-386): the window is
open, no exchange is outstanding and the input is not blank. -/
def sendEnabled (message : Text) (s : ChatState) : Bool :=
  s.isOpen && !s.isLoading && !(jsTrim message).isEmpty

/-- One event.  An event that cannot happen in a state leaves it as it is. -/
def step (clock : Nat → Text) (w : Widget) (e : Event) : Widget :=
  match w, e with
  | .idle s, .send message =>
    if sendEnabled message s then
      .streaming { s with inputValue := message }
        { assistantContent := []
          newSessionId := s.sessionId
          ui := beginExchange clock (jsTrim message) { s with inputValue := [] } }
    else .idle s
  | .idle s, .clear => if clearEnabled s then .idle (handleClear s) else .idle s
  | .idle s, _ => .idle s
  | .streaming r a, .frame parsed =>
    .streaming r (applyFrame clock (r.messages.length + 1) parsed a)
  | .streaming r a, .endOfStream =>
    .idle { finalize clock r (r.messages.length + 1) a with isLoading := false }
  | .streaming _ a, .failure => .idle { catchBlock a.ui with isLoading := false }
  | .streaming r a, .clear =>
    if clearEnabled a.ui then .streaming r { a with ui := handleClear a.ui } else .streaming r a
  | .streaming r a, .send _ => .streaming r a

/-- A sequence of events. -/
def steps (clock : Nat → Text) (es : List Event) (w : Widget) : Widget :=
  es.foldl (step clock) w

/-- Whether every position of a transcript holds a message. -/
def allMessages (ms : List (Option Message)) : Bool :=
  ms.all Option.isSome

/-- The write index of the handler in flight is the index of the last entry, and every
position of the transcript holds a message. -/
def WritesAtLast : Widget → Prop
  | .idle s => allMessages s.messages = true
  | .streaming r a =>
    a.ui.messages.length = r.messages.length + 2 ∧ allMessages a.ui.messages = true

/-- The state at mount with the window opened. -/
def opened : ChatState :=
  { ChatState.initial with isOpen := true }

/-! ## `ClientsPage.jsx` -/

/-- A row of the client list as the page reads it: `id`, `name`, `datafile_id` and `model_id`
(`none` when the field is `null` or missing). -/
structure Client where
  id : Nat
  name : Text
  datafileId : Option Nat
  modelId : Option Nat
deriving DecidableEq

/-- A row of the model list: its `id` and the record it comes from. -/
structure Model where
  id : Nat
  record : Json

/-- Truthiness of an optional numeric field, as in `!record.model_id`. -/
def idTruthy : Option Nat → Bool
  | none => false
  | some n => n != 0

/-- A call of `clientAPI.evaluate` with its argument `{ client_ids, house_data }`. -/
structure EvaluateCall where
  clientIds : List Nat
  houseData : Json

/-- The `useState` cells of `ClientsPage` that the handlers below read or write, together
with the notifications raised, the calls of `clientAPI.evaluate` made and the result
dialogs shown so far. -/
structure PageState where
  clients : List Client
  models : List Model
  selectedClients : List Nat
  evaluateModalVisible : Bool
  notices : List Notice
  evaluateCalls : List EvaluateCall
  dialogs : List Json

/-- The call `list.findIndex(p)`; `none` is the result -1. -/
def findIndex {α : Type} (p : α → Bool) : List α → Option Nat
  | [] => none
  | x :: xs => if p x then some 0 else (findIndex p xs).map (· + 1)

/-- Lines 189-201: the updater passed to `setModels` for the model `newModel` of a training
response. -/
def upsertModel (newModel : Model) (prevModels : List Model) : List Model :=
  match findIndex (fun m => m.id == newModel.id) prevModels with
  | some existingIndex => prevModels.set existingIndex newModel
  | none => newModel :: prevModels

/-- Lines 186-202 of `handleTrainSubmit`: the model list after a training response whose
`data.model` is `model` (`none` when the response carries no model). -/
def updateModelsAfterTraining (model : Option Model) (s : PageState) : PageState :=
  match model with
  | some newModel => { s with models := upsertModel newModel s.models }
  | none => s

/-- The argument of the notification that the response interceptor of api.js raises for a
rejected request whose error data is no `Blob` (lines 43-49). -/
def interceptorMessage (e : AxiosError) : Json :=
  match e.data with
  | some d =>
    if d.truthy then
      orElse2 (d.prop "message".toList) (d.prop "error".toList) "请求失败".toList
    else if e.message.isEmpty then .str "网络错误".toList else .str e.message
  | none => if e.message.isEmpty then .str "网络错误".toList else .str e.message

/-- The outcome of a request of `clientAPI` whose response the page does not read. -/
inductive Ack where
  | rejected (e : AxiosError)
  | resolved

/-- The outcome of `clientAPI.getList()`, read as `response.data || response.clients || []`. -/
inductive Listing where
  | rejected (e : AxiosError)
  | resolved (clients : List Client)

/-- The outcome of `clientAPI.evaluate(...)`. -/
inductive EvaluateResult where
  | rejected (e : AxiosError)
  | resolved (response : Json)

/-- Lines 65-74: `loadClients`. -/
def loadClients (net : Listing) (s : PageState) : PageState :=
  match net with
  | .resolved clientData => { s with clients := clientData }
  | .rejected e => { s with notices := s.notices ++ [.error (interceptorMessage e)] }

/-- Lines 116-124: `handleDelete(id)`, with the outcome of the delete request and of the
reload that follows it. -/
def handleDelete (ack : Ack) (reload : Listing) (s : PageState) : PageState :=
  match ack with
  | .resolved =>
    loadClients reload { s with notices := s.notices ++ [.success (.str "删除成功".toList)] }
  | .rejected e => { s with notices := s.notices ++ [.error (interceptorMessage e)] }

/-- Lines 143-156: `handleBindModel(clientId, modelId)`, which binds when `modelId` is truthy
and unbinds otherwise, with the outcome of the request and of the reload that follows. -/
def handleBindModel (modelId : Option Nat) (ack : Ack) (reload : Listing)
    (s : PageState) : PageState :=
  match ack with
  | .resolved =>
    loadClients reload
      { s with notices := s.notices ++
          [.success (.str (if idTruthy modelId then "模型绑定成功".toList
            else "模型解绑成功".toList))] }
  | .rejected e => { s with notices := s.notices ++ [.error (interceptorMessage e)] }

/-- Lines 426-438: a click on the checkbox of the row `record`, rendered from `rendered`.  The
checkbox is disabled when the row has no model; a click turns the shown state around. -/
def toggleSelect (rendered : PageState) (record : Client) (s : PageState) : PageState :=
  if !idTruthy record.modelId then s
  else if rendered.selectedClients.contains record.id then
    { s with selectedClients := rendered.selectedClients.filter (fun id => id != record.id) }
  else { s with selectedClients := rendered.selectedClients ++ [record.id] }

/-- Lines 244-391: `handleEvaluateSubmit(values)` of the render `rendered` for the text
`houseData` of the form field.  `dialogError` stands for lines 258-379, the construction
of the result dialog from the response: `none` when the dialog is built, the message of
the exception when reading a field of the response throws. -/
def handleEvaluateSubmit (parse : Text → Option Json) (dialogError : Json → Option Text)
    (rendered : PageState) (houseData : Text) (net : EvaluateResult)
    (s : PageState) : PageState :=
  match parse (jsTrim houseData) with
  | none =>
    { s with notices := s.notices ++
        [Notice.error (.str "JSON 格式错误，请检查输入的数据格式是否正确".toList)] }
  | some parsed =>
    let s1 := { s with evaluateCalls := s.evaluateCalls ++ [EvaluateCall.mk rendered.selectedClients parsed] }
    match net with
    | .rejected e =>
      { s1 with notices := s1.notices ++
          [Notice.error (interceptorMessage e),
            Notice.error (.str ("评估失败: ".toList ++
              (if e.message.isEmpty then "未知错误".toList else e.message)))] }
    | .resolved response =>
      match dialogError response with
      | some msg =>
        { s1 with notices := s1.notices ++
            [Notice.error (.str ("评估失败: ".toList ++
              (if msg.isEmpty then "未知错误".toList else msg)))] }
      | none => { s1 with dialogs := s1.dialogs ++ [response], evaluateModalVisible := false }

/-- Lines 735-745: the validator of the field `house_data`; `true` when it resolves. -/
def houseDataValid (parse : Text → Option Json) (value : Text) : Bool :=
  if value.isEmpty then true else (parse (jsTrim value)).isSome

/-- What can happen on the client page: a click on the checkbox of a row, the deletion of
a client, a change of the model binding of a client, a reload of the list. -/
inductive PageEvent where
  | toggle (record : Client)
  | delete (id : Nat) (ack : Ack) (reload : Listing)
  | bindModel (clientId : Nat) (modelId : Option Nat) (ack : Ack) (reload : Listing)
  | reload (net : Listing)

/-- One event on the page; a checkbox exists for the rows of the list only. -/
def pageStep (s : PageState) (e : PageEvent) : PageState :=
  match e with
  | .toggle record => if record ∈ s.clients then toggleSelect s record s else s
  | .delete _ ack reload => handleDelete ack reload s
  | .bindModel _ modelId ack reload => handleBindModel modelId ack reload s
  | .reload net => loadClients net s

/-- A sequence of events on the page. -/
def pageSteps (es : List PageEvent) (s : PageState) : PageState :=
  es.foldl pageStep s

/-- Every selected id is the id of a client of the list that has a model bound. -/
def SelectionValid (s : PageState) : Prop :=
  ∀ id ∈ s.selectedClients, ∃ c ∈ s.clients, c.id = id ∧ idTruthy c.modelId = true

/-- Whether an event is a click on a checkbox. -/
def PageEvent.isToggle : PageEvent → Bool
  | .toggle _ => true
  | _ => false

/-- A page with one client, which has the model 7 bound. -/
def onePage : PageState :=
  { clients := [⟨1, "a".toList, none, some 7⟩], models := [], selectedClients := [],
    evaluateModalVisible := false, notices := [], evaluateCalls := [], dialogs := [] }

/-! ## Vocabulary of the properties -/

/-- One exchange as `handleSend` starts it: the handler of the current render, in one of the
two modes, with the outcome of its request. -/
inductive Exchange where
  | stream (message : Text) (net : FetchResult)
  | normal (message : Text) (net : ChatResult)

/-- An exchange run to its end from the state `s`, by the handler rendered from `s`. -/
def runExchange (parse : Text → Option Json) (clock : Nat → Text) (s : ChatState)
    (e : Exchange) : ChatState :=
  match e with
  | .stream message net => handleStreamResponse parse clock s message net s
  | .normal message net => handleNormalResponse clock s message net s

/-- A sequence of exchanges, one after the other, with no clear in between. -/
def runExchanges (parse : Text → Option Json) (clock : Nat → Text) (es : List Exchange)
    (s : ChatState) : ChatState :=
  es.foldl (runExchange parse clock) s

/-- Whether the `type` of a parsed value is one of the frame kinds of the protocol. -/
def isKnownType (v : Json) : Bool :=
  strictEq (v.prop "type".toList) "session".toList
    || strictEq (v.prop "type".toList) "content".toList
    || strictEq (v.prop "type".toList) "tool_call".toList
    || strictEq (v.prop "type".toList) "tool_executing".toList
    || strictEq (v.prop "type".toList) "tool_result".toList
    || strictEq (v.prop "type".toList) "done".toList
    || strictEq (v.prop "type".toList) "error".toList

/-- The widget state with the session identifier blanked: what two states share when they
differ in the session identifier at most. -/
def withoutSession (s : ChatState) : ChatState :=
  { s with sessionId := Json.null }

/-- Two states of the loop variables with the same accumulated text, transcript and clock. -/
def SameTranscript (a b : Vars) : Prop :=
  a.assistantContent = b.assistantContent ∧ a.ui.messages = b.ui.messages ∧
    a.ui.ticks = b.ui.ticks

/-- Two states of the loop variables that show the same transcript, text, notifications and
clock, and differ in the session identifier at most. -/
def SameButSession (a b : Vars) : Prop :=
  a.assistantContent = b.assistantContent ∧ withoutSession a.ui = withoutSession b.ui


/-- The user entry that `handleStreamResponse(message)` appends in state `s`. -/
def userEntry (clock : Nat → Text) (message : Text) (s : ChatState) : Message :=
  { role := .user, content := .str message, timestamp := clock s.ticks, isStreaming := none }

/-- The loop of an exchange that `handleStreamResponse(message)` starts in the state `s` it was
rendered from, after the chunks `chunks`. -/
def exchangeLoop (parse : Text → Option Json) (clock : Nat → Text) (message : Text)
    (chunks : List (List Nat)) (s : ChatState) : Rx × Acc :=
  readLoop parse clock (s.messages.length + 1) chunks (loopInit s (beginExchange clock message s))

/-- The transcript of an exchange in flight: the transcript `T` from before the exchange, the
user entry `u`, and the in-progress assistant entry, which shows the accumulated text. -/
def InFlight (T : List (Option Message)) (u : Message) (a : Vars) : Prop :=
  ∃ ts, a.ui.messages =
    T ++ [some u, some ⟨.assistant, .str a.assistantContent, ts, some true⟩]

/-- A `content` frame that carries the fragment `f`. -/
def isContentFrame (v : Json) (f : Text) : Prop :=
  v.prop "type".toList = some (.str "content".toList) ∧ v.prop "content".toList = some (.str f)

/-- A `done` frame. -/
def isDoneFrame (v : Json) : Prop :=
  v.prop "type".toList = some (.str "done".toList)

/-- Whether an entry of the transcript is a message with `isStreaming` true. -/
def streamingAt (e : Option Message) : Bool :=
  match e with
  | some m => m.isStreaming == some true
  | none => false

/-- At most one entry has `isStreaming` true, and only the last entry can have it. -/
def SingleInProgress (ms : List (Option Message)) : Prop :=
  ms.countP streamingAt ≤ 1 ∧ ∀ e ∈ ms.dropLast, streamingAt e = false

/-- No entry has `isStreaming` true: no exchange is in flight. -/
def Quiescent (ms : List (Option Message)) : Prop :=
  ∀ e ∈ ms, streamingAt e = false

/-- Whether a parsed value carries a session identifier: `parsed.session_id` is truthy. -/
def carriesSession (v : Json) : Bool :=
  truthy? (v.prop "session_id".toList)

/-- The text the decoder yields for the chunks of a body. -/
def bodyText (chunks : List (List Nat)) : Text :=
  (decodeChunk Utf8State.init chunks.flatten).2

/-- Whether a parsed value is a `content` frame with text: the test of line 102. -/
def carriesContent (v : Json) : Bool :=
  strictEq (v.prop "type".toList) "content".toList && truthy? (v.prop "content".toList)

/-- Whether a parsed value is a `tool_call`, `tool_executing` or `tool_result` frame: the
tests of lines 116 and 135. -/
def isToolFrame (v : Json) : Bool :=
  strictEq (v.prop "type".toList) "tool_call".toList
    || strictEq (v.prop "type".toList) "tool_executing".toList
    || strictEq (v.prop "type".toList) "tool_result".toList

/-- The loop variables of an exchange that `handleStreamResponse(message)` starts in the state
`s` it was rendered from, after the parsed values `frames`. -/
def exchangeVars (clock : Nat → Text) (message : Text) (frames : List Json)
    (s : ChatState) : Vars :=
  applyFrames clock (s.messages.length + 1) frames
    { assistantContent := [], newSessionId := s.sessionId, ui := beginExchange clock message s }

/-! ## Concrete inputs for the examples -/

/-- The UTF-8 bytes of an ASCII text. -/
def ascii (t : String) : List Nat := t.toList.map Char.toNat

/-- A clock for the examples: the k-th read yields k strokes. -/
def tickClock (k : Nat) : Text := List.replicate k '|'

/-- A parsed frame object with the given string-valued fields. -/
def frameOf (fields : List (String × String)) : Json :=
  .obj (fields.map fun p => (p.1.toList, .str p.2.toList))

/-- The wire lines of the examples with the values `JSON.parse` returns for them. -/
def wireTable : List (Text × Json) :=
  [ ("\x7b\"type\":\"session\",\"session_id\":\"s1\"\x7d".toList,
      frameOf [("type", "session"), ("session_id", "s1")]),
    ("\x7b\"type\":\"content\",\"content\":\"Hel\"\x7d".toList,
      frameOf [("type", "content"), ("content", "Hel")]),
    ("\x7b\"type\":\"content\",\"content\":\"lo\"\x7d".toList,
      frameOf [("type", "content"), ("content", "lo")]),
    ("\x7b\"type\":\"content\",\"content\":\"\"\x7d".toList,
      frameOf [("type", "content"), ("content", "")]),
    ("\x7b\"type\":\"content\",\"content\":\"x\",\"session_id\":\"s2\"\x7d".toList,
      frameOf [("type", "content"), ("content", "x"), ("session_id", "s2")]),
    ("\x7b\"type\":\"tool_call\",\"tool_name\":\"search\",\"tool_args\":\x7b\"q\":\"x\"\x7d\x7d".toList,
      .obj [("type".toList, .str "tool_call".toList), ("tool_name".toList, .str "search".toList),
        ("tool_args".toList, .obj [("q".toList, .str "x".toList)])]),
    ("\x7b\"type\":\"tool_executing\",\"tool_name\":\"search\"\x7d".toList,
      frameOf [("type", "tool_executing"), ("tool_name", "search")]),
    ("\x7b\"type\":\"tool_result\"\x7d".toList, frameOf [("type", "tool_result")]),
    ("\x7b\"type\":\"done\"\x7d".toList, frameOf [("type", "done")]),
    ("\x7b\"type\":\"error\",\"message\":\"boom\"\x7d".toList,
      frameOf [("type", "error"), ("message", "boom")]),
    ("\x7b\"type\":\"ping\"\x7d".toList, frameOf [("type", "ping")]),
    ("\x7b\"type\":\"ping\",\"session_id\":\"s9\"\x7d".toList,
      frameOf [("type", "ping"), ("session_id", "s9")]) ]

/-- The function `JSON.parse` on the wire lines of the examples.  A text that is not listed is
treated as one on which `JSON.parse` throws; the examples use such text only where it
does. -/
def wireParse (t : Text) : Option Json := wireTable.lookup t

/-- Scenario A of the specification as a body, cut in the middle of its second line. -/
def scenarioA : List (List Nat) :=
  [ ascii "data: \x7b\"type\":\"content\",\"content\":\"Hel\"\x7d\ndata: \x7b\"type\":\"con",
    ascii "tent\",\"content\":\"lo\"\x7d\ndata: \x7b\"type\":\"done\"\x7d\n" ]

/-- A body with the single frame line `content` / `Hel`. -/
def oneContentLine : List (List Nat) :=
  [ ascii "data: \x7b\"type\":\"content\",\"content\":\"Hel\"\x7d\n" ]

/-- A body with one `content` frame whose fragment is the empty string. -/
def emptyFragment : List (List Nat) :=
  [ ascii "data: \x7b\"type\":\"content\",\"content\":\"\"\x7d\n" ]

/-- A body whose first frame carries the session identifier `s1` and whose second frame
carries `s2`. -/
def twoSessions : List (List Nat) :=
  [ ascii "data: \x7b\"type\":\"session\",\"session_id\":\"s1\"\x7d\n",
    ascii "data: \x7b\"type\":\"content\",\"content\":\"x\",\"session_id\":\"s2\"\x7d\n" ]

/-- A body of two valid frame lines. -/
def twoLines : List (List Nat) :=
  [ ascii "data: \x7b\"type\":\"content\",\"content\":\"Hel\"\x7d\ndata: \x7b\"type\":\"done\"\x7d\n" ]

/-- The same body with a line that is not JSON between the two. -/
def twoLinesWithJunk : List (List Nat) :=
  [ ascii "data: \x7b\"type\":\"content\",\"content\":\"Hel\"\x7d\noops, not json\ndata: \x7b\"type\":\"done\"\x7d\n" ]

/-- A body whose only frame is a `tool_result` frame. -/
def toolResultOnly : List (List Nat) :=
  [ ascii "data: \x7b\"type\":\"tool_result\"\x7d\n" ]

/-- A body with a `session` frame, an `error` frame and a `done` frame. -/
def noText : List (List Nat) :=
  [ ascii "data: \x7b\"type\":\"session\",\"session_id\":\"s1\"\x7d\n",
    ascii "data: \x7b\"type\":\"error\",\"message\":\"boom\"\x7d\ndata: \x7b\"type\":\"done\"\x7d\n" ]

/-- The parsed `tool_call` frame of scenario C. -/
def searchCall : Json :=
  .obj [("type".toList, .str "tool_call".toList), ("tool_name".toList, .str "search".toList),
    ("tool_args".toList, .obj [("q".toList, .str "x".toList)])]

/-- A `tool_call` frame whose arguments are the number `1e999`, which `JSON.parse` reads
as `Infinity`. -/
def overflowCall : Json :=
  .obj [("type".toList, .str "tool_call".toList), ("tool_name".toList, .str "search".toList),
    ("tool_args".toList, .num "Infinity".toList)]

/-- A response of the non-streaming endpoint with a session identifier and a message. -/
def replyWithSession : Json :=
  frameOf [("session_id", "n1"), ("message", "ok")]

/-- The state at mount with the session identifier `s0` set. -/
def sessionSet : ChatState :=
  { ChatState.initial with sessionId := .str "s0".toList }

/-- A body whose only line is a frame of the unknown type `ping` that carries the session
identifier `s9`. -/
def pingWithSession : List (List Nat) :=
  [ ascii "data: \x7b\"type\":\"ping\",\"session_id\":\"s9\"\x7d\n" ]

/-- A body with an `error` frame followed by a `content` frame. -/
def errorThenContent : List (List Nat) :=
  [ ascii "data: \x7b\"type\":\"error\",\"message\":\"boom\"\x7d\n",
    ascii "data: \x7b\"type\":\"content\",\"content\":\"Hel\"\x7d\n" ]

/-- A body whose second line, a `done` frame, is not terminated by a newline. -/
def unterminated : List (List Nat) :=
  [ ascii "data: \x7b\"type\":\"content\",\"content\":\"Hel\"\x7d\ndata: \x7b\"type\":\"done\"\x7d" ]

/-- The state at mount with `  hello ` typed in the input, in non-streaming mode. -/
def typedNormal : ChatState :=
  { ChatState.initial with isOpen := true, inputValue := "  hello ".toList, mode := .normal }

/-! ## Chunk boundaries -/

theorem decodeChunk_append (st : Utf8State) (a b : List Nat) :
    decodeChunk st (a ++ b) =
      ((decodeChunk (decodeChunk st a).1 b).1,
        (decodeChunk st a).2 ++ (decodeChunk (decodeChunk st a).1 b).2) := by
  induction a generalizing st with
  | nil => simp [decodeChunk]
  | cons x xs ih => simp [decodeChunk, ih, List.append_assoc]

theorem splitNewline_ne_nil (t : Text) : splitNewline t ≠ [] := by
  cases t with
  | nil => simp [splitNewline]
  | cons c cs =>
    simp only [splitNewline]
    split
    · simp
    · split <;> simp

theorem splitNewline_of_not_mem {t : Text} (h : '\n' ∉ t) : splitNewline t = [t] := by
  induction t with
  | nil => rfl
  | cons c cs ih =>
    have hc : c ≠ '\n' := fun e => h (by simp [e])
    have hcs : '\n' ∉ cs := fun e => h (by simp [e])
    simp [splitNewline, hc, ih hcs]

theorem splitNewline_append_newline {b : Text} (h : '\n' ∉ b) (r : Text) :
    splitNewline (b ++ '\n' :: r) = b :: splitNewline r := by
  induction b with
  | nil => simp [splitNewline]
  | cons c cs ih =>
    have hc : c ≠ '\n' := fun e => h (by simp [e])
    have hcs : '\n' ∉ cs := fun e => h (by simp [e])
    simp [splitNewline, hc, ih hcs]

theorem popOrEmpty_singleton (t : Text) : popOrEmpty [t] = t := by
  cases t <;> simp [popOrEmpty]

theorem popOrEmpty_cons (x : Text) {l : List Text} (h : l ≠ []) :
    popOrEmpty (x :: l) = popOrEmpty l := by
  cases l with
  | nil => exact absurd rfl h
  | cons y ys => simp [popOrEmpty, List.getLast?_cons_cons]

theorem feedText_nil (parse : Text → Option Json) (clock : Nat → Text) (idx : Nat)
    {buffer : Text} (h : '\n' ∉ buffer) (a : Acc) :
    feedText parse clock idx buffer a [] = (buffer, a) := by
  simp [feedText, splitNewline_of_not_mem h, popOrEmpty_singleton]

theorem feedText_newline (parse : Text → Option Json) (clock : Nat → Text) (idx : Nat)
    {buffer : Text} (h : '\n' ∉ buffer) (a : Acc) (rest : Text) :
    feedText parse clock idx buffer a ('\n' :: rest) =
      feedText parse clock idx [] (processLine parse clock idx a buffer) rest := by
  have hne := splitNewline_ne_nil rest
  simp [feedText, splitNewline_append_newline h, popOrEmpty_cons _ hne,
    List.dropLast_cons_of_ne_nil hne]

theorem feedText_cons (parse : Text → Option Json) (clock : Nat → Text) (idx : Nat)
    (buffer : Text) (a : Acc) (c : Char) (rest : Text) :
    feedText parse clock idx buffer a (c :: rest) =
      feedText parse clock idx (buffer ++ [c]) a rest := by
  simp [feedText]

/-- Feeding a text in two pieces is feeding it at once, and the retained fragment never
holds a newline. -/
theorem feedText_append (parse : Text → Option Json) (clock : Nat → Text) (idx : Nat)
    (t1 t2 : Text) : ∀ (buffer : Text) (a : Acc), '\n' ∉ buffer →
      '\n' ∉ (feedText parse clock idx buffer a t1).1 ∧
      feedText parse clock idx buffer a (t1 ++ t2) =
        feedText parse clock idx (feedText parse clock idx buffer a t1).1
          (feedText parse clock idx buffer a t1).2 t2 := by
  induction t1 with
  | nil =>
    intro buffer a h
    simp [feedText_nil parse clock idx h, h]
  | cons c cs ih =>
    intro buffer a h
    by_cases hc : c = '\n'
    · subst hc
      have hnil : '\n' ∉ ([] : Text) := by simp
      rw [List.cons_append, feedText_newline parse clock idx h, feedText_newline parse clock idx h]
      exact ih [] _ hnil
    · have hb : '\n' ∉ buffer ++ [c] := by
        simp only [List.mem_append, List.mem_singleton, not_or]
        exact ⟨h, fun e => hc e.symm⟩
      rw [List.cons_append, feedText_cons, feedText_cons]
      exact ih _ _ hb

theorem processChunk_append (parse : Text → Option Json) (clock : Nat → Text) (idx : Nat)
    (st : Rx × Acc) (h : '\n' ∉ st.1.buffer) (a b : List Nat) :
    '\n' ∉ (processChunk parse clock idx st a).1.buffer ∧
    processChunk parse clock idx st (a ++ b) =
      processChunk parse clock idx (processChunk parse clock idx st a) b := by
  have key := feedText_append parse clock idx (decodeChunk st.1.decoder a).2
    (decodeChunk (decodeChunk st.1.decoder a).1 b).2 st.1.buffer st.2 h
  refine ⟨key.1, ?_⟩
  simp only [processChunk, decodeChunk_append, key.2]

theorem processChunk_nil (parse : Text → Option Json) (clock : Nat → Text) (idx : Nat)
    (st : Rx × Acc) (h : '\n' ∉ st.1.buffer) :
    processChunk parse clock idx st [] = st := by
  simp [processChunk, decodeChunk, feedText_nil parse clock idx h]

/-- The read loop over any chunks is one iteration on their concatenation. -/
theorem readLoop_eq_processChunk_join (parse : Text → Option Json) (clock : Nat → Text)
    (idx : Nat) (chunks : List (List Nat)) :
    ∀ st : Rx × Acc, '\n' ∉ st.1.buffer →
      readLoop parse clock idx chunks st = processChunk parse clock idx st chunks.flatten := by
  induction chunks with
  | nil =>
    intro st h
    simp [readLoop, processChunk_nil parse clock idx st h]
  | cons c cs ih =>
    intro st h
    have hc := processChunk_append parse clock idx st h c cs.flatten
    have := ih (processChunk parse clock idx st c) hc.1
    simp only [readLoop, List.foldl_cons, List.flatten_cons] at this ⊢
    rw [this, hc.2]

/-! ## The loop as a fold over the parsed values -/

theorem processLine_eq (parse : Text → Option Json) (clock : Nat → Text) (idx : Nat)
    (a : Acc) (line : Text) :
    processLine parse clock idx a line =
      match lineFrame parse line with
      | none => a
      | some v => { vars := applyFrame clock idx v a.vars, frames := a.frames ++ [v] } := by
  unfold processLine lineFrame
  cases payloadOf line with
  | none => rfl
  | some p => cases parse p <;> rfl

theorem foldl_processLine (parse : Text → Option Json) (clock : Nat → Text) (idx : Nat)
    (lines : List Text) : ∀ a : Acc,
      lines.foldl (processLine parse clock idx) a =
        { vars := applyFrames clock idx (lines.filterMap (lineFrame parse)) a.vars,
          frames := a.frames ++ lines.filterMap (lineFrame parse) } := by
  induction lines with
  | nil => intro a; simp [applyFrames]
  | cons l ls ih =>
    intro a
    rw [List.foldl_cons, ih, processLine_eq]
    cases h : lineFrame parse l with
    | none => simp [List.filterMap_cons, h]
    | some v => simp [List.filterMap_cons, h, applyFrames]

/-- The complete lines of a body: all lines of the decoded text but the fragment after
the last newline. -/
theorem readLoop_eq_fold (parse : Text → Option Json) (clock : Nat → Text) (idx : Nat)
    (chunks : List (List Nat)) (rendered s : ChatState) :
    (readLoop parse clock idx chunks (loopInit rendered s)).2 =
      { vars := applyFrames clock idx
          ((splitNewline (decodeChunk Utf8State.init chunks.flatten).2).dropLast.filterMap
            (lineFrame parse)) (loopInit rendered s).2.vars,
        frames := (splitNewline (decodeChunk Utf8State.init chunks.flatten).2).dropLast.filterMap
            (lineFrame parse) } := by
  have h : '\n' ∉ (loopInit rendered s).1.buffer := by simp [loopInit]
  rw [readLoop_eq_processChunk_join parse clock idx chunks _ h]
  simp [processChunk, feedText, foldl_processLine, loopInit]

/-- What the loop leaves in its variables and in the widget state is the fold of lines 95-155
over the values it parsed. -/
theorem readLoop_vars (parse : Text → Option Json) (clock : Nat → Text) (idx : Nat)
    (chunks : List (List Nat)) (rendered s : ChatState) :
    (readLoop parse clock idx chunks (loopInit rendered s)).2.vars =
      applyFrames clock idx (readLoop parse clock idx chunks (loopInit rendered s)).2.frames
        { assistantContent := [], newSessionId := rendered.sessionId, ui := s } := by
  rw [readLoop_eq_fold]
  rfl

/-! ## The transcript during an exchange -/

theorem setAt_last (T : List (Option Message)) (x y : Option Message) (m : Message) :
    setAt (T ++ [x, y]) (T.length + 1) m = T ++ [x, some m] := by
  induction T with
  | nil => rfl
  | cons t ts ih => simp [setAt, ih]

theorem dispatch_cases (clock : Nat → Text) (idx : Nat) (v : Json) (a : Vars) :
    dispatch clock idx v a = a ∨
      (∃ t, dispatch clock idx v a = accumulate clock idx (a.assistantContent ++ t) a) ∨
      ∃ n, dispatch clock idx v a = { a with ui := notifyError n a.ui } := by
  unfold dispatch
  simp only []
  repeat' split
  all_goals
    first
    | exact Or.inl rfl
    | exact Or.inr (Or.inl ⟨_, rfl⟩)
    | exact Or.inr (Or.inl ⟨_, by rw [List.append_assoc]⟩)
    | exact Or.inr (Or.inr ⟨_, rfl⟩)

theorem adoptSession_cases (v : Json) (a : Vars) :
    adoptSession v a = a ∨
      ∃ sid, v.prop "session_id".toList = some sid ∧ sid.truthy = true ∧
        a.newSessionId.truthy = false ∧
        adoptSession v a = { a with newSessionId := sid, ui := { a.ui with sessionId := sid } } := by
  unfold adoptSession
  cases h : v.prop "session_id".toList with
  | none => exact Or.inl rfl
  | some sid =>
    by_cases hc : (sid.truthy && !a.newSessionId.truthy) = true
    · simp only [hc, if_true]
      simp only [Bool.and_eq_true, Bool.not_eq_true'] at hc
      exact Or.inr ⟨sid, rfl, hc.1, hc.2, rfl⟩
    · simp only [hc]
      exact Or.inl rfl

theorem beginExchange_messages (clock : Nat → Text) (message : Text) (s : ChatState) :
    (beginExchange clock message s).messages =
      s.messages ++ [some (userEntry clock message s),
        some ⟨.assistant, .str [], clock (s.ticks + 1), some true⟩] := by
  simp [beginExchange, pushMessage, userEntry]

theorem applyFrame_inFlight (clock : Nat → Text) (T : List (Option Message)) (u : Message)
    (v : Json) (a : Vars) (h : InFlight T u a) :
    InFlight T u (applyFrame clock (T.length + 1) v a) := by
  have step : ∀ b : Vars, InFlight T u b → InFlight T u (dispatch clock (T.length + 1) v b) := by
    intro b hb
    obtain ⟨ts, hts⟩ := hb
    rcases dispatch_cases clock (T.length + 1) v b with e | ⟨t, e⟩ | ⟨n, e⟩
    · rw [e]; exact ⟨ts, hts⟩
    · rw [e]
      exact ⟨clock b.ui.ticks, by simp [accumulate, writeAssistant, hts, setAt_last]⟩
    · rw [e]; exact ⟨ts, by simpa [notifyError] using hts⟩
  have adopt : InFlight T u (adoptSession v a) := by
    obtain ⟨ts, hts⟩ := h
    rcases adoptSession_cases v a with e | ⟨sid, _, _, _, e⟩
    · rw [e]; exact ⟨ts, hts⟩
    · rw [e]; exact ⟨ts, hts⟩
  cases v with
  | null => exact h
  | bool b => exact step _ adopt
  | num r => exact step _ adopt
  | str t => exact step _ adopt
  | arr xs => exact step _ adopt
  | obj ps => exact step _ adopt

theorem applyFrames_inFlight (clock : Nat → Text) (T : List (Option Message)) (u : Message)
    (fs : List Json) : ∀ a : Vars, InFlight T u a →
      InFlight T u (applyFrames clock (T.length + 1) fs a) := by
  induction fs with
  | nil => intro a h; exact h
  | cons v vs ih =>
    intro a h
    exact ih _ (applyFrame_inFlight clock T u v a h)

/-- While the loop of an exchange runs, the transcript is the old transcript, the user entry
and the in-progress assistant entry. -/
theorem exchangeLoop_inFlight (parse : Text → Option Json) (clock : Nat → Text)
    (message : Text) (chunks : List (List Nat)) (s : ChatState) :
    InFlight s.messages (userEntry clock message s)
      (exchangeLoop parse clock message chunks s).2.vars := by
  unfold exchangeLoop
  rw [readLoop_vars]
  apply applyFrames_inFlight
  exact ⟨clock (s.ticks + 1), by simp [beginExchange_messages]⟩

theorem finalize_messages (clock : Nat → Text) (rendered : ChatState)
    (T : List (Option Message)) (u : Message) (a : Vars) (h : InFlight T u a) :
    (finalize clock rendered (T.length + 1) a).messages =
      T ++ [some u,
        some ⟨.assistant, .str (finalText a.assistantContent), clock a.ui.ticks, some false⟩] := by
  obtain ⟨ts, hts⟩ := h
  unfold finalize
  by_cases ho : rendered.isOpen = true <;> simp [ho, writeAssistant, hts, setAt_last]

/-- The transcript after an exchange whose body was read to its end. -/
theorem completed_messages (parse : Text → Option Json) (clock : Nat → Text)
    (message : Text) (status : Nat) (chunks : List (List Nat)) (s : ChatState) :
    (handleStreamResponse parse clock s message (.response status (some ⟨chunks, .done⟩))
        s).messages =
      s.messages ++ [some (userEntry clock message s),
        some ⟨.assistant,
          .str (finalText (exchangeLoop parse clock message chunks s).2.vars.assistantContent),
          clock (exchangeLoop parse clock message chunks s).2.vars.ui.ticks, some false⟩] := by
  have h := finalize_messages clock s s.messages (userEntry clock message s) _
    (exchangeLoop_inFlight parse clock message chunks s)
  simpa [handleStreamResponse, tryBlock, exchangeLoop] using h

/-! ## C1: chunk-boundary independence -/

/-- C1. However the bytes of a response body are cut into chunks, in the middle of a line or
of a multi-byte character as well, the read loop of `handleStreamResponse` ends in the
state it reaches when the whole body arrives as one chunk: the same values parsed in the
same order, the same accumulated text, the same session id, the same widget state; and
so does the handler. -/
theorem C1_chunk_boundary_independence (parse : Text → Option Json) (clock : Nat → Text)
    (rendered s : ChatState) (message : Text) (status : Nat) (chunks : List (List Nat))
    (ending : StreamEnd) :
    readLoop parse clock (rendered.messages.length + 1) chunks
        (loopInit rendered (beginExchange clock message s)) =
      readLoop parse clock (rendered.messages.length + 1) [chunks.flatten]
        (loopInit rendered (beginExchange clock message s)) ∧
    handleStreamResponse parse clock rendered message (.response status (some ⟨chunks, ending⟩)) s =
      handleStreamResponse parse clock rendered message
        (.response status (some ⟨[chunks.flatten], ending⟩)) s := by
  have hb : '\n' ∉ (loopInit rendered (beginExchange clock message s)).1.buffer := by
    simp [loopInit]
  have key : readLoop parse clock (rendered.messages.length + 1) chunks
        (loopInit rendered (beginExchange clock message s)) =
      readLoop parse clock (rendered.messages.length + 1) [chunks.flatten]
        (loopInit rendered (beginExchange clock message s)) := by
    rw [readLoop_eq_processChunk_join parse clock _ chunks _ hb,
      readLoop_eq_processChunk_join parse clock _ [chunks.flatten] _ hb]
    simp
  refine ⟨key, ?_⟩
  simp only [handleStreamResponse, tryBlock, key]

/-! ## C2: accumulation of content fragments -/

theorem adoptSession_content (v : Json) (a : Vars) :
    (adoptSession v a).assistantContent = a.assistantContent := by
  rcases adoptSession_cases v a with e | ⟨sid, _, _, _, e⟩ <;> rw [e]

theorem applyFrame_content (clock : Nat → Text) (idx : Nat) (v : Json) (f : Text) (a : Vars)
    (h : isContentFrame v f) :
    (applyFrame clock idx v a).assistantContent = a.assistantContent ++ f := by
  obtain ⟨h1, h2⟩ := h
  have hd : (dispatch clock idx v (adoptSession v a)).assistantContent =
      a.assistantContent ++ f := by
    unfold dispatch
    simp only [h1, h2]
    cases f with
    | nil => simp [strictEq, truthy?, Json.truthy, adoptSession_content]
    | cons c cs =>
      simp [strictEq, truthy?, Json.truthy, adoptSession_content, accumulate, Json.toText]
  cases v with
  | obj ps => exact hd
  | _ => simp [Json.prop] at h1

theorem applyFrame_done (clock : Nat → Text) (idx : Nat) (v : Json) (a : Vars)
    (h : isDoneFrame v) :
    (applyFrame clock idx v a).assistantContent = a.assistantContent := by
  have hd : (dispatch clock idx v (adoptSession v a)).assistantContent =
      a.assistantContent := by
    unfold dispatch
    unfold isDoneFrame at h
    simp only [h]
    simp [strictEq, adoptSession_content]
  cases v with
  | obj ps => exact hd
  | _ => simp [isDoneFrame, Json.prop] at h

theorem applyFrames_content (clock : Nat → Text) (idx : Nat) (cs : List Json)
    (fs : List Text) (h : List.Forall₂ isContentFrame cs fs) : ∀ a : Vars,
      (applyFrames clock idx cs a).assistantContent = a.assistantContent ++ fs.flatten := by
  induction h with
  | nil => intro a; simp [applyFrames]
  | @cons v f vs fs' hv _ ih =>
    intro a
    have := ih (applyFrame clock idx v a)
    simp only [applyFrames, List.foldl_cons, List.flatten_cons] at this ⊢
    rw [this, applyFrame_content clock idx v f a hv, List.append_assoc]

theorem applyFrames_done (clock : Nat → Text) (idx : Nat) (ds : List Json) :
    ∀ a : Vars, (∀ d ∈ ds, isDoneFrame d) →
      (applyFrames clock idx ds a).assistantContent = a.assistantContent := by
  induction ds with
  | nil => intro a _; rfl
  | cons d ds ih =>
    intro a h
    have hd := applyFrame_done clock idx d a (h d (by simp))
    have := ih (applyFrame clock idx d a) (fun x hx => h x (by simp [hx]))
    simp only [applyFrames, List.foldl_cons] at this ⊢
    rw [this, hd]

theorem applyFrames_append (clock : Nat → Text) (idx : Nat) (xs ys : List Json) (a : Vars) :
    applyFrames clock idx (xs ++ ys) a = applyFrames clock idx ys (applyFrames clock idx xs a) := by
  simp [applyFrames]

/-- C2 (amended). When the values parsed from a body are `content` frames with the fragments
`f1..fn`, followed by any number of `done` frames, and the body is read to its end, the
transcript ends with the user entry and one finalized assistant entry (`isStreaming`
false) whose content is the concatenation `f1+...+fn` with nothing inserted when that
concatenation is not empty, and the placeholder `(无回复)` when it is empty. -/
theorem C2_content_accumulation (parse : Text → Option Json) (clock : Nat → Text)
    (message : Text) (status : Nat) (chunks : List (List Nat)) (s : ChatState)
    (cs ds : List Json) (fs : List Text)
    (htrace : (exchangeLoop parse clock message chunks s).2.frames = cs ++ ds)
    (hcs : List.Forall₂ isContentFrame cs fs)
    (hds : ∀ d ∈ ds, isDoneFrame d) :
    ∃ ts, (handleStreamResponse parse clock s message
        (.response status (some ⟨chunks, .done⟩)) s).messages =
      s.messages ++ [some (userEntry clock message s),
        some ⟨.assistant,
          .str (if fs.flatten = [] then "(无回复)".toList else fs.flatten), ts, some false⟩] := by
  have hc : (exchangeLoop parse clock message chunks s).2.vars.assistantContent = fs.flatten := by
    have hv : (exchangeLoop parse clock message chunks s).2.vars = _ :=
      readLoop_vars parse clock _ chunks s (beginExchange clock message s)
    rw [show (readLoop parse clock (s.messages.length + 1) chunks
        (loopInit s (beginExchange clock message s))).2.frames = cs ++ ds from htrace] at hv
    rw [hv, applyFrames_append, applyFrames_done clock _ ds _ hds,
      applyFrames_content clock _ cs fs hcs]
    rfl
  refine ⟨clock (exchangeLoop parse clock message chunks s).2.vars.ui.ticks, ?_⟩
  rw [completed_messages, hc]
  simp [finalText, List.isEmpty_iff]

/-- Scenario A: the fragments `Hel` and `lo`, then `done`, give `Hello` with `isStreaming`
false. -/
theorem C2_content_accumulation_witness :
    ∃ ts, (handleStreamResponse wireParse tickClock ChatState.initial "hi".toList
        (.response 200 (some ⟨scenarioA, .done⟩)) ChatState.initial).messages =
      [] ++ [some (userEntry tickClock "hi".toList ChatState.initial),
        some ⟨.assistant, .str "Hello".toList, ts, some false⟩] :=
  C2_content_accumulation wireParse tickClock "hi".toList 200 scenarioA ChatState.initial
    [frameOf [("type", "content"), ("content", "Hel")],
      frameOf [("type", "content"), ("content", "lo")]]
    [frameOf [("type", "done")]]
    ["Hel".toList, "lo".toList]
    rfl
    (List.Forall₂.cons ⟨rfl, rfl⟩ (List.Forall₂.cons ⟨rfl, rfl⟩ List.Forall₂.nil))
    (by intro d hd; rw [List.mem_singleton] at hd; rw [hd]; rfl)

/-- C2 as stated fails on a body whose only frame is a `content` frame with the empty
fragment: the concatenation of the fragments is the empty text, and the finalized entry
shows the placeholder instead. -/
theorem C2_counterexample :
    (exchangeLoop wireParse tickClock "hi".toList emptyFragment ChatState.initial).2.frames =
        [frameOf [("type", "content"), ("content", "")]] ∧
    isContentFrame (frameOf [("type", "content"), ("content", "")]) [] ∧
    (handleStreamResponse wireParse tickClock ChatState.initial "hi".toList
        (.response 200 (some ⟨emptyFragment, .done⟩)) ChatState.initial).messages =
      [some (userEntry tickClock "hi".toList ChatState.initial),
        some ⟨.assistant, .str "(无回复)".toList, tickClock 2, some false⟩] ∧
    ¬ ∃ ts, (handleStreamResponse wireParse tickClock ChatState.initial "hi".toList
        (.response 200 (some ⟨emptyFragment, .done⟩)) ChatState.initial).messages =
      [some (userEntry tickClock "hi".toList ChatState.initial),
        some ⟨.assistant, .str ([[]] : List Text).flatten, ts, some false⟩] := by
  refine ⟨rfl, ⟨rfl, rfl⟩, rfl, ?_⟩
  rintro ⟨ts, h⟩
  have h2 : (handleStreamResponse wireParse tickClock ChatState.initial "hi".toList
        (.response 200 (some ⟨emptyFragment, .done⟩)) ChatState.initial).messages =
      [some (userEntry tickClock "hi".toList ChatState.initial),
        some ⟨.assistant, .str "(无回复)".toList, tickClock 2, some false⟩] := rfl
  rw [h2] at h
  simp at h

/-! ## C3 and C4: transport failures -/

theorem dropLast_append_pair {α : Type} (T : List α) (x y : α) :
    (T ++ [x, y]).dropLast = T ++ [x] := by
  induction T with
  | nil => rfl
  | cons t ts ih =>
    cases ts with
    | nil => rfl
    | cons t2 ts2 => simp [List.dropLast]

theorem catchBlock_messages (T : List (Option Message)) (u : Message) (a : Vars)
    (h : InFlight T u a) : (catchBlock a.ui).messages = T ++ [some u] := by
  obtain ⟨ts, hts⟩ := h
  simp [catchBlock, notifyError, hts, dropLast_append_pair]

/-- The transcript after an exchange whose transport failed: only the assistant entry is
removed, the user entry stays. -/
theorem failed_messages (parse : Text → Option Json) (clock : Nat → Text)
    (message : Text) (s : ChatState) :
    (handleStreamResponse parse clock s message .rejected s).messages =
      s.messages ++ [some (userEntry clock message s)] ∧
    (∀ status, (handleStreamResponse parse clock s message (.response status none) s).messages =
      s.messages ++ [some (userEntry clock message s)]) ∧
    (∀ status chunks, (handleStreamResponse parse clock s message
        (.response status (some ⟨chunks, .failed⟩)) s).messages =
      s.messages ++ [some (userEntry clock message s)]) := by
  have h0 : InFlight s.messages (userEntry clock message s)
      { assistantContent := [], newSessionId := s.sessionId,
        ui := beginExchange clock message s } :=
    ⟨clock (s.ticks + 1), by simp [beginExchange_messages]⟩
  refine ⟨?_, ?_, ?_⟩
  · simpa [handleStreamResponse, tryBlock] using catchBlock_messages _ _ _ h0
  · intro status
    simpa [handleStreamResponse, tryBlock] using catchBlock_messages _ _ _ h0
  · intro status chunks
    simpa [handleStreamResponse, tryBlock, exchangeLoop] using
      catchBlock_messages _ _ _ (exchangeLoop_inFlight parse clock message chunks s)

/-- C3, the code at the failing input. From the empty transcript (length 0), a rejected
`chatStream` leaves a transcript of length 1 that still holds the user entry, and so does
a read that rejects after a first frame was shown: the `catch` block drops one entry,
the exchange had appended two. -/
theorem C3_rollback_keeps_user_entry :
    (handleStreamResponse wireParse tickClock ChatState.initial "hi".toList .rejected
        ChatState.initial).messages =
      [some ⟨.user, .str "hi".toList, tickClock 0, none⟩] ∧
    (handleStreamResponse wireParse tickClock ChatState.initial "hi".toList .rejected
        ChatState.initial).messages.length = ChatState.initial.messages.length + 1 ∧
    (handleStreamResponse wireParse tickClock ChatState.initial "hi".toList
        (.response 200 (some ⟨oneContentLine, .failed⟩)) ChatState.initial).messages =
      [some ⟨.user, .str "hi".toList, tickClock 0, none⟩] :=
  ⟨rfl, rfl, rfl⟩

theorem status_ignored (parse : Text → Option Json) (clock : Nat → Text)
    (rendered s : ChatState) (message : Text) (status : Nat) (body : Option Body) :
    handleStreamResponse parse clock rendered message (.response status body) s =
      handleStreamResponse parse clock rendered message (.response 200 body) s := by
  cases body <;> rfl

/-- C4, the code at the failing input. A response with status 500 whose body is the text
`Internal Server Error` is read like a successful one: the exchange completes, the
transcript keeps the user entry and a finalized assistant entry with the placeholder,
and no notification is raised; a rejected `chatStream` raises the failure notification. -/
theorem C4_error_status_not_a_failure :
    statusOk 500 = false ∧
    (handleStreamResponse wireParse tickClock ChatState.initial "hi".toList
        (.response 500 (some ⟨[ascii "Internal Server Error"], .done⟩))
        ChatState.initial).messages =
      [some ⟨.user, .str "hi".toList, tickClock 0, none⟩,
        some ⟨.assistant, .str "(无回复)".toList, tickClock 2, some false⟩] ∧
    (handleStreamResponse wireParse tickClock ChatState.initial "hi".toList
        (.response 500 (some ⟨[ascii "Internal Server Error"], .done⟩))
        ChatState.initial).notices.length = 0 ∧
    (handleStreamResponse wireParse tickClock ChatState.initial "hi".toList .rejected
        ChatState.initial).notices.length = 1 :=
  ⟨rfl, rfl, rfl, rfl⟩

/-! ## C8: finalization at the end of the stream -/

/-- C8. Whatever the body held, with or without a `done` frame, once it is read to its end
the transcript is the old transcript, the user entry and the assistant entry finalized:
`isStreaming` is false and the content is the accumulated text, or the placeholder
`(无回复)` when no text was accumulated. -/
theorem C8_finalized_at_end_of_stream (parse : Text → Option Json) (clock : Nat → Text)
    (message : Text) (status : Nat) (chunks : List (List Nat)) (s : ChatState) :
    (handleStreamResponse parse clock s message (.response status (some ⟨chunks, .done⟩))
        s).messages =
      s.messages ++ [some (userEntry clock message s),
        some ⟨.assistant,
          .str (if (exchangeLoop parse clock message chunks s).2.vars.assistantContent = []
            then "(无回复)".toList
            else (exchangeLoop parse clock message chunks s).2.vars.assistantContent),
          clock (exchangeLoop parse clock message chunks s).2.vars.ui.ticks, some false⟩] := by
  rw [completed_messages]
  simp [finalText, List.isEmpty_iff]

/-! ## C5: a single in-progress entry -/

theorem quiescent_single {ms : List (Option Message)} (h : Quiescent ms) :
    SingleInProgress ms := by
  constructor
  · have : ms.countP streamingAt = 0 := by
      rw [List.countP_eq_zero]
      intro e he
      simp [h e he]
    omega
  · intro e he
    exact h e (List.mem_of_mem_dropLast he)

theorem inFlight_single {T : List (Option Message)} {u : Message} {a : Vars}
    (hT : Quiescent T) (hu : u.isStreaming = none) (h : InFlight T u a) :
    SingleInProgress a.ui.messages := by
  obtain ⟨ts, hts⟩ := h
  have hq : Quiescent (T ++ [some u]) := by
    intro e he
    rcases List.mem_append.mp he with h1 | h1
    · exact hT e h1
    · rw [List.mem_singleton] at h1
      subst h1
      simp [streamingAt, hu]
  have hsplit : a.ui.messages =
      (T ++ [some u]) ++ [some ⟨.assistant, .str a.assistantContent, ts, some true⟩] := by
    rw [hts]; simp
  constructor
  · have h0 : (T ++ [some u]).countP streamingAt = 0 := by
      rw [List.countP_eq_zero]
      intro e he
      simp [hq e he]
    rw [hsplit, List.countP_append, h0]
    simp [List.countP_cons, streamingAt]
  · intro e he
    rw [hsplit, List.dropLast_concat] at he
    exact hq e he

theorem quiescent_after (parse : Text → Option Json) (clock : Nat → Text)
    (message : Text) (s : ChatState) (hq : Quiescent s.messages) (net : FetchResult) :
    Quiescent (handleStreamResponse parse clock s message net s).messages := by
  have hu : Quiescent (s.messages ++ [some (userEntry clock message s)]) := by
    intro e he
    rcases List.mem_append.mp he with h1 | h1
    · exact hq e h1
    · rw [List.mem_singleton] at h1
      subst h1
      rfl
  have hf := failed_messages parse clock message s
  cases net with
  | rejected => rw [hf.1]; exact hu
  | response status body =>
    cases body with
    | none => rw [hf.2.1 status]; exact hu
    | some b =>
      obtain ⟨chunks, ending⟩ := b
      cases ending with
      | failed => rw [hf.2.2 status chunks]; exact hu
      | done =>
        rw [completed_messages]
        intro e he
        rcases List.mem_append.mp he with h1 | h1
        · exact hq e h1
        · simp only [List.mem_cons, List.mem_singleton, List.not_mem_nil, or_false] at h1
          rcases h1 with h1 | h1 <;> subst h1 <;> rfl

/-- C5. An exchange started from a transcript without an in-progress entry keeps the
invariant at every point: after any sequence of parsed frames, after any chunks of a
body, and after the handler has returned on any transport outcome, at most one entry
has `isStreaming` true and no entry before the last one has it; once the handler has
returned no entry has it, so the next exchange starts as this one did. -/
theorem C5_single_in_progress (parse : Text → Option Json) (clock : Nat → Text)
    (message : Text) (s : ChatState) (hq : Quiescent s.messages) :
    (∀ frames : List Json, SingleInProgress
      (applyFrames clock (s.messages.length + 1) frames
        { assistantContent := [], newSessionId := s.sessionId,
          ui := beginExchange clock message s }).ui.messages) ∧
    (∀ chunks : List (List Nat), SingleInProgress
      (exchangeLoop parse clock message chunks s).2.vars.ui.messages) ∧
    (∀ net : FetchResult,
      SingleInProgress (handleStreamResponse parse clock s message net s).messages ∧
      Quiescent (handleStreamResponse parse clock s message net s).messages) := by
  refine ⟨?_, ?_, ?_⟩
  · intro frames
    apply inFlight_single hq (u := userEntry clock message s) rfl
    apply applyFrames_inFlight
    exact ⟨clock (s.ticks + 1), by simp [beginExchange_messages]⟩
  · intro chunks
    exact inFlight_single hq rfl (exchangeLoop_inFlight parse clock message chunks s)
  · intro net
    have h := quiescent_after parse clock message s hq net
    exact ⟨quiescent_single h, h⟩

/-- The invariant on scenario A, started from the empty transcript. -/
theorem C5_single_in_progress_witness :
    Quiescent ChatState.initial.messages ∧
    SingleInProgress (exchangeLoop wireParse tickClock "hi".toList scenarioA
      ChatState.initial).2.vars.ui.messages :=
  ⟨fun _ he => absurd he (List.not_mem_nil _),
    (C5_single_in_progress wireParse tickClock "hi".toList ChatState.initial
      (fun _ he => absurd he (List.not_mem_nil _))).2.1 scenarioA⟩

/-! ## C6: adoption of the first session identifier -/

theorem dispatch_session (clock : Nat → Text) (idx : Nat) (v : Json) (a : Vars) :
    (dispatch clock idx v a).newSessionId = a.newSessionId ∧
      (dispatch clock idx v a).ui.sessionId = a.ui.sessionId := by
  rcases dispatch_cases clock idx v a with e | ⟨t, e⟩ | ⟨n, e⟩ <;> rw [e] <;>
    simp [accumulate, writeAssistant, notifyError]

theorem applyFrame_eq (clock : Nat → Text) (idx : Nat) (v : Json) (a : Vars) :
    applyFrame clock idx v a = a ∨
      applyFrame clock idx v a = dispatch clock idx v (adoptSession v a) := by
  cases v <;> first | exact Or.inl rfl | exact Or.inr rfl

theorem applyFrame_session_skip (clock : Nat → Text) (idx : Nat) (v : Json) (a : Vars)
    (h : carriesSession v = false) :
    (applyFrame clock idx v a).newSessionId = a.newSessionId ∧
      (applyFrame clock idx v a).ui.sessionId = a.ui.sessionId := by
  have ha : adoptSession v a = a := by
    rcases adoptSession_cases v a with e | ⟨sid, h1, h2, _, _⟩
    · exact e
    · unfold carriesSession at h
      rw [h1] at h
      simp [truthy?, h2] at h
  rcases applyFrame_eq clock idx v a with e | e
  · rw [e]; exact ⟨rfl, rfl⟩
  · rw [e, ha]; exact dispatch_session clock idx v a

theorem applyFrame_session_keep (clock : Nat → Text) (idx : Nat) (v : Json) (a : Vars)
    (h : a.newSessionId.truthy = true) :
    (applyFrame clock idx v a).newSessionId = a.newSessionId ∧
      (applyFrame clock idx v a).ui.sessionId = a.ui.sessionId := by
  have ha : adoptSession v a = a := by
    rcases adoptSession_cases v a with e | ⟨sid, _, _, h3, _⟩
    · exact e
    · rw [h] at h3; exact absurd h3 (by simp)
  rcases applyFrame_eq clock idx v a with e | e
  · rw [e]; exact ⟨rfl, rfl⟩
  · rw [e, ha]; exact dispatch_session clock idx v a

theorem applyFrame_session_adopt (clock : Nat → Text) (idx : Nat) (v sid : Json) (a : Vars)
    (h : a.newSessionId.truthy = false) (hv : v.prop "session_id".toList = some sid)
    (hsid : sid.truthy = true) :
    (applyFrame clock idx v a).newSessionId = sid ∧
      (applyFrame clock idx v a).ui.sessionId = sid := by
  have ha : adoptSession v a =
      { a with newSessionId := sid, ui := { a.ui with sessionId := sid } } := by
    unfold adoptSession
    simp only [hv]
    simp [h, hsid]
  have hd := dispatch_session clock idx v (adoptSession v a)
  cases v with
  | obj ps =>
    show (dispatch clock idx (.obj ps) (adoptSession (.obj ps) a)).newSessionId = sid ∧
      (dispatch clock idx (.obj ps) (adoptSession (.obj ps) a)).ui.sessionId = sid
    rw [hd.1, hd.2, ha]
    exact ⟨rfl, rfl⟩
  | _ => simp [Json.prop] at hv

theorem applyFrames_session_skip (clock : Nat → Text) (idx : Nat) (pre : List Json) :
    ∀ a : Vars, (∀ p ∈ pre, carriesSession p = false) →
      (applyFrames clock idx pre a).newSessionId = a.newSessionId ∧
        (applyFrames clock idx pre a).ui.sessionId = a.ui.sessionId := by
  induction pre with
  | nil => intro a _; exact ⟨rfl, rfl⟩
  | cons p ps ih =>
    intro a h
    have h1 := applyFrame_session_skip clock idx p a (h p (by simp))
    have h2 := ih (applyFrame clock idx p a) (fun x hx => h x (by simp [hx]))
    simp only [applyFrames, List.foldl_cons] at h2 ⊢
    exact ⟨h2.1.trans h1.1, h2.2.trans h1.2⟩

theorem applyFrames_session_keep (clock : Nat → Text) (idx : Nat) (post : List Json) :
    ∀ a : Vars, a.newSessionId.truthy = true →
      (applyFrames clock idx post a).newSessionId = a.newSessionId ∧
        (applyFrames clock idx post a).ui.sessionId = a.ui.sessionId := by
  induction post with
  | nil => intro a _; exact ⟨rfl, rfl⟩
  | cons p ps ih =>
    intro a h
    have h1 := applyFrame_session_keep clock idx p a h
    have h2 := ih (applyFrame clock idx p a) (by rw [h1.1]; exact h)
    simp only [applyFrames, List.foldl_cons] at h2 ⊢
    exact ⟨h2.1.trans h1.1, h2.2.trans h1.2⟩

theorem handle_sessionId (parse : Text → Option Json) (clock : Nat → Text)
    (message : Text) (status : Nat) (chunks : List (List Nat)) (ending : StreamEnd)
    (s : ChatState) :
    (handleStreamResponse parse clock s message (.response status (some ⟨chunks, ending⟩))
        s).sessionId =
      (exchangeLoop parse clock message chunks s).2.vars.ui.sessionId := by
  cases ending
  · simp only [handleStreamResponse, tryBlock, finalize, exchangeLoop, writeAssistant]
    split <;> rfl
  · rfl

/-- C6. In an exchange started with no session set, when the first parsed frame that
carries a session identifier carries `sid`, the session identifier after the stream is
`sid`, whatever the later frames carry and however the body ends. -/
theorem C6_first_session_adopted (parse : Text → Option Json) (clock : Nat → Text)
    (message : Text) (status : Nat) (chunks : List (List Nat)) (ending : StreamEnd)
    (s : ChatState) (pre post : List Json) (v sid : Json)
    (hs : s.sessionId = .null)
    (htrace : (exchangeLoop parse clock message chunks s).2.frames = pre ++ v :: post)
    (hpre : ∀ p ∈ pre, carriesSession p = false)
    (hv : v.prop "session_id".toList = some sid) (hsid : sid.truthy = true) :
    (handleStreamResponse parse clock s message (.response status (some ⟨chunks, ending⟩))
        s).sessionId = sid ∧
    (exchangeLoop parse clock message chunks s).2.vars.newSessionId = sid := by
  have hvars : (exchangeLoop parse clock message chunks s).2.vars = _ :=
    readLoop_vars parse clock _ chunks s (beginExchange clock message s)
  rw [show (readLoop parse clock (s.messages.length + 1) chunks
      (loopInit s (beginExchange clock message s))).2.frames = pre ++ v :: post from htrace,
    applyFrames_append] at hvars
  have h1 := applyFrames_session_skip clock (s.messages.length + 1) pre
    { assistantContent := [], newSessionId := s.sessionId,
      ui := beginExchange clock message s } hpre
  have h2 := applyFrame_session_adopt clock (s.messages.length + 1) v sid
    (applyFrames clock (s.messages.length + 1) pre
      { assistantContent := [], newSessionId := s.sessionId,
        ui := beginExchange clock message s })
    (by rw [h1.1, hs]; rfl) hv hsid
  have h3 := applyFrames_session_keep clock (s.messages.length + 1) post _
    (by rw [h2.1]; exact hsid)
  have hfold : ∀ x : Vars, applyFrames clock (s.messages.length + 1) (v :: post) x =
      applyFrames clock (s.messages.length + 1) post
        (applyFrame clock (s.messages.length + 1) v x) := fun _ => rfl
  rw [hfold] at hvars
  rw [handle_sessionId, hvars]
  exact ⟨h3.2.trans h2.2, h3.1.trans h2.1⟩

/-- A first frame carrying `s1` and a second carrying `s2`: the session is `s1`. -/
theorem C6_first_session_adopted_witness :
    (handleStreamResponse wireParse tickClock ChatState.initial "hi".toList
        (.response 200 (some ⟨twoSessions, .done⟩)) ChatState.initial).sessionId
      = .str "s1".toList ∧
    (exchangeLoop wireParse tickClock "hi".toList twoSessions
        ChatState.initial).2.vars.newSessionId = .str "s1".toList :=
  C6_first_session_adopted wireParse tickClock "hi".toList 200 twoSessions .done
    ChatState.initial []
    [frameOf [("type", "content"), ("content", "x"), ("session_id", "s2")]]
    (frameOf [("type", "session"), ("session_id", "s1")]) (.str "s1".toList)
    rfl rfl (fun _ he => absurd he (List.not_mem_nil _)) rfl rfl

/-! ## C7: lines that are not frames -/

theorem splitNewline_append (a b : Text) :
    splitNewline (a ++ '\n' :: b) = splitNewline a ++ splitNewline b := by
  induction a with
  | nil => simp [splitNewline]
  | cons c cs ih =>
    by_cases hc : c = '\n'
    · simp [splitNewline, hc, ih]
    · have hne := splitNewline_ne_nil cs
      cases hsp : splitNewline cs with
      | nil => exact absurd hsp hne
      | cons l ls => simp [splitNewline, hc, ih, hsp]

/-- The frames of the complete lines are the same with and without a line that yields
no frame. -/
theorem complete_lines_skip (parse : Text → Option Json) (pre junk post : Text)
    (hnl : '\n' ∉ junk) (hjunk : lineFrame parse junk = none) :
    (splitNewline (pre ++ '\n' :: (junk ++ '\n' :: post))).dropLast.filterMap (lineFrame parse) =
      (splitNewline (pre ++ '\n' :: post)).dropLast.filterMap (lineFrame parse) := by
  have hne := splitNewline_ne_nil post
  rw [splitNewline_append pre (junk ++ '\n' :: post), splitNewline_append pre post,
    splitNewline_append_newline hnl,
    List.dropLast_append_of_ne_nil _ (by simp),
    List.dropLast_append_of_ne_nil _ hne, List.dropLast_cons_of_ne_nil hne]
  simp [List.filterMap_append, List.filterMap_cons, hjunk]

/-- C7. When a line that is empty, whitespace-only or not JSON (a line that yields no
parsed value) is inserted at a line boundary of a body, the loop parses the same values in
the same order and leaves the same variables and widget state, the handler returns the
same state (transcript and session id included), and a body read to its end leaves the
`try` block normally: the `catch` block does not run. -/
theorem C7_malformed_line_tolerance (parse : Text → Option Json) (clock : Nat → Text)
    (rendered s : ChatState) (message : Text) (status : Nat) (ending : StreamEnd)
    (chunks withJunk : List (List Nat)) (pre junk post : Text)
    (h1 : bodyText chunks = pre ++ '\n' :: post)
    (h2 : bodyText withJunk = pre ++ '\n' :: (junk ++ '\n' :: post))
    (hnl : '\n' ∉ junk) (hjunk : lineFrame parse junk = none) :
    (readLoop parse clock (rendered.messages.length + 1) withJunk
        (loopInit rendered (beginExchange clock message s))).2 =
      (readLoop parse clock (rendered.messages.length + 1) chunks
        (loopInit rendered (beginExchange clock message s))).2 ∧
    handleStreamResponse parse clock rendered message
        (.response status (some ⟨withJunk, ending⟩)) s =
      handleStreamResponse parse clock rendered message
        (.response status (some ⟨chunks, ending⟩)) s ∧
    ∃ s', tryBlock parse clock rendered (rendered.messages.length + 1)
        (.response status (some ⟨withJunk, .done⟩)) (beginExchange clock message s) = .ok s' := by
  have key : (readLoop parse clock (rendered.messages.length + 1) withJunk
        (loopInit rendered (beginExchange clock message s))).2 =
      (readLoop parse clock (rendered.messages.length + 1) chunks
        (loopInit rendered (beginExchange clock message s))).2 := by
    rw [readLoop_eq_fold, readLoop_eq_fold]
    unfold bodyText at h1 h2
    rw [h1, h2, complete_lines_skip parse pre junk post hnl hjunk]
  refine ⟨key, ?_, ⟨_, rfl⟩⟩
  simp only [handleStreamResponse, tryBlock, key]

/-- The line `oops, not json` between two frame lines. -/
theorem C7_malformed_line_tolerance_witness :
    handleStreamResponse wireParse tickClock ChatState.initial "hi".toList
        (.response 200 (some ⟨twoLinesWithJunk, .done⟩)) ChatState.initial =
      handleStreamResponse wireParse tickClock ChatState.initial "hi".toList
        (.response 200 (some ⟨twoLines, .done⟩)) ChatState.initial :=
  (C7_malformed_line_tolerance wireParse tickClock ChatState.initial ChatState.initial
    "hi".toList 200 .done twoLines twoLinesWithJunk
    "data: \x7b\"type\":\"content\",\"content\":\"Hel\"\x7d".toList
    "oops, not json".toList
    "data: \x7b\"type\":\"done\"\x7d\n".toList
    (by decide) (by decide) (by decide) rfl).2.1

/-! ## C9: the placeholder of an empty reply -/

theorem applyFrame_no_text (clock : Nat → Text) (idx : Nat) (v : Json) (a : Vars)
    (hc : carriesContent v = false) (ht : isToolFrame v = false) :
    (applyFrame clock idx v a).assistantContent = a.assistantContent := by
  rcases applyFrame_eq clock idx v a with e | e
  · rw [e]
  · rw [e]
    unfold carriesContent at hc
    unfold isToolFrame at ht
    rw [Bool.or_eq_false_iff, Bool.or_eq_false_iff] at ht
    obtain ⟨⟨h1, h2⟩, h3⟩ := ht
    unfold dispatch
    simp only [hc, h1, h2, h3, Bool.false_eq_true, if_false, Bool.or_false]
    split
    · exact adoptSession_content v a
    · split
      · exact adoptSession_content v a
      · exact adoptSession_content v a

theorem applyFrames_no_text (clock : Nat → Text) (idx : Nat) (fs : List Json) :
    ∀ a : Vars, (∀ v ∈ fs, carriesContent v = false ∧ isToolFrame v = false) →
      (applyFrames clock idx fs a).assistantContent = a.assistantContent := by
  induction fs with
  | nil => intro a _; rfl
  | cons v vs ih =>
    intro a h
    have h1 := applyFrame_no_text clock idx v a (h v (by simp)).1 (h v (by simp)).2
    have h2 := ih (applyFrame clock idx v a) (fun x hx => h x (by simp [hx]))
    simp only [applyFrames, List.foldl_cons] at h2 ⊢
    rw [h2, h1]

/-- C9 (amended). When no parsed frame of a body is a `content` frame with text or a
`tool_call`, `tool_executing` or `tool_result` frame, and the body is read to its end, the
finalized assistant entry shows the placeholder `(无回复)`. -/
theorem C9_placeholder_without_text (parse : Text → Option Json) (clock : Nat → Text)
    (message : Text) (status : Nat) (chunks : List (List Nat)) (s : ChatState)
    (h : ∀ v ∈ (exchangeLoop parse clock message chunks s).2.frames,
      carriesContent v = false ∧ isToolFrame v = false) :
    ∃ ts, (handleStreamResponse parse clock s message
        (.response status (some ⟨chunks, .done⟩)) s).messages =
      s.messages ++ [some (userEntry clock message s),
        some ⟨.assistant, .str "(无回复)".toList, ts, some false⟩] := by
  have hc : (exchangeLoop parse clock message chunks s).2.vars.assistantContent = [] := by
    have hv : (exchangeLoop parse clock message chunks s).2.vars = _ :=
      readLoop_vars parse clock _ chunks s (beginExchange clock message s)
    rw [hv]
    exact applyFrames_no_text clock _ _ _ h
  refine ⟨clock (exchangeLoop parse clock message chunks s).2.vars.ui.ticks, ?_⟩
  rw [completed_messages, hc]
  rfl

/-- A body with a `session`, an `error` and a `done` frame ends in the placeholder. -/
theorem C9_placeholder_without_text_witness :
    ∃ ts, (handleStreamResponse wireParse tickClock ChatState.initial "hi".toList
        (.response 200 (some ⟨noText, .done⟩)) ChatState.initial).messages =
      [] ++ [some (userEntry tickClock "hi".toList ChatState.initial),
        some ⟨.assistant, .str "(无回复)".toList, ts, some false⟩] :=
  C9_placeholder_without_text wireParse tickClock "hi".toList 200 noText ChatState.initial
    (by
      intro v hv
      have htrace : (exchangeLoop wireParse tickClock "hi".toList noText
          ChatState.initial).2.frames =
        [frameOf [("type", "session"), ("session_id", "s1")],
          frameOf [("type", "error"), ("message", "boom")],
          frameOf [("type", "done")]] := rfl
      rw [htrace] at hv
      simp only [List.mem_cons, List.mem_singleton, List.not_mem_nil, or_false] at hv
      rcases hv with e | e | e <;> rw [e] <;> exact ⟨rfl, rfl⟩)

/-- C9 as stated fails on a body whose only frame is a `tool_result` frame: no frame
carries content, and the finalized entry shows the completion annotation, not the
placeholder. -/
theorem C9_counterexample :
    (exchangeLoop wireParse tickClock "hi".toList toolResultOnly ChatState.initial).2.frames =
        [frameOf [("type", "tool_result")]] ∧
    carriesContent (frameOf [("type", "tool_result")]) = false ∧
    (handleStreamResponse wireParse tickClock ChatState.initial "hi".toList
        (.response 200 (some ⟨toolResultOnly, .done⟩)) ChatState.initial).messages =
      [some (userEntry tickClock "hi".toList ChatState.initial),
        some ⟨.assistant, .str "\n📊 工具执行完成\n\n".toList, tickClock 3, some false⟩] ∧
    ¬ ∃ ts, (handleStreamResponse wireParse tickClock ChatState.initial "hi".toList
        (.response 200 (some ⟨toolResultOnly, .done⟩)) ChatState.initial).messages =
      [some (userEntry tickClock "hi".toList ChatState.initial),
        some ⟨.assistant, .str "(无回复)".toList, ts, some false⟩] := by
  refine ⟨rfl, rfl, rfl, ?_⟩
  rintro ⟨ts, h⟩
  have h2 : (handleStreamResponse wireParse tickClock ChatState.initial "hi".toList
        (.response 200 (some ⟨toolResultOnly, .done⟩)) ChatState.initial).messages =
      [some (userEntry tickClock "hi".toList ChatState.initial),
        some ⟨.assistant, .str "\n📊 工具执行完成\n\n".toList, tickClock 3, some false⟩] := rfl
  rw [h2] at h
  simp at h

/-! ## C10: tool annotations -/

theorem setAt_getElem (ms : List (Option Message)) (idx : Nat) (m : Message) :
    (setAt ms idx m)[idx]? = some (some m) := by
  induction idx generalizing ms with
  | zero => cases ms <;> simp [setAt]
  | succ i ih => cases ms <;> simp [setAt, ih]

theorem orElse_of_falsy {x : Option Json} (h : truthy? x = false) (d : Text) :
    orElse x d = .str d := by
  cases x with
  | none => rfl
  | some v =>
    have hv : v.truthy = false := h
    simp [orElse, hv]

theorem accumulate_entry (clock : Nat → Text) (idx : Nat) (content : Text) (a : Vars) :
    (accumulate clock idx content a).assistantContent = content ∧
    (accumulate clock idx content a).ui.messages[idx]? =
      some (some ⟨.assistant, .str content, clock a.ui.ticks, some true⟩) := by
  simp [accumulate, writeAssistant, setAt_getElem]

theorem applyFrame_tool_call (clock : Nat → Text) (idx : Nat) (v : Json) (a : Vars)
    (t dump : Text)
    (hv : v.prop "type".toList = some (.str "tool_call".toList) ∨
      v.prop "type".toList = some (.str "tool_executing".toList))
    (hname : (v.prop "tool_name".toList = some (.str t) ∧ t ≠ []) ∨
      (truthy? (v.prop "tool_name".toList) = false ∧ t = "未知工具".toList))
    (hargs : (∃ args, v.prop "tool_args".toList = some args ∧ args.truthy = true ∧
        dump = "\n参数: ".toList ++ jsonStringify2 args) ∨
      (truthy? (v.prop "tool_args".toList) = false ∧ dump = [])) :
    applyFrame clock idx v a =
      accumulate clock idx (a.assistantContent ++ ("\n\n🔧 正在调用工具: ".toList ++ t ++ dump))
        (adoptSession v a) := by
  have hname2 : (orElse (v.prop "tool_name".toList) "未知工具".toList).toText = some t := by
    rcases hname with ⟨h1, h2⟩ | ⟨h1, h2⟩
    · rw [h1]
      cases t with
      | nil => exact absurd rfl h2
      | cons c cs => rfl
    · rw [orElse_of_falsy h1, h2]; rfl
  have hcond1 : (strictEq (v.prop "type".toList) "content".toList &&
      truthy? (v.prop "content".toList)) = false := by
    rcases hv with h | h <;> rw [h] <;> rfl
  have hcond2 : (strictEq (v.prop "type".toList) "tool_call".toList ||
      strictEq (v.prop "type".toList) "tool_executing".toList) = true := by
    rcases hv with h | h <;> rw [h] <;> rfl
  have hd : dispatch clock idx v (adoptSession v a) =
      accumulate clock idx (a.assistantContent ++ ("\n\n🔧 正在调用工具: ".toList ++ t ++ dump))
        (adoptSession v a) := by
    unfold dispatch
    simp only [hcond1, hcond2, Bool.false_eq_true, if_false, if_true, hname2,
      adoptSession_content]
    rcases hargs with ⟨args, h1, h2, h3⟩ | ⟨h1, h2⟩
    · simp only [h1, h2, if_true, h3, List.append_assoc]
    · cases hp : v.prop "tool_args".toList with
      | none => simp only [h2, List.append_nil]
      | some args =>
        rw [hp] at h1
        have hf : args.truthy = false := h1
        simp only [hf, Bool.false_eq_true, if_false, h2, List.append_nil]
  cases v with
  | obj ps => exact hd
  | _ => rcases hv with h | h <;> simp [Json.prop] at h

theorem applyFrame_tool_result (clock : Nat → Text) (idx : Nat) (w : Json) (a : Vars)
    (hw : w.prop "type".toList = some (.str "tool_result".toList)) :
    applyFrame clock idx w a =
      accumulate clock idx (a.assistantContent ++ "\n📊 工具执行完成\n\n".toList)
        (adoptSession w a) := by
  have hd : dispatch clock idx w (adoptSession w a) =
      accumulate clock idx (a.assistantContent ++ "\n📊 工具执行完成\n\n".toList)
        (adoptSession w a) := by
    unfold dispatch
    simp only [hw, adoptSession_content]
    rfl
  cases w with
  | obj ps => exact hd
  | _ => simp [Json.prop] at hw

/-- The dump of a number: its text when it is finite, `null` when it is not. -/
theorem jsonStringify2_num (r : Text) :
    jsonStringify2 (.num r) = if isNonFinite r then "null".toList else r := by
  simp [jsonStringify2, stringifyAt]

/-- Arguments that are the number `Infinity` are truthy, and their dump is `null`. -/
theorem applyFrame_nonFinite_args :
    (Json.num "Infinity".toList).truthy = true ∧
    (applyFrame tickClock 1 overflowCall
      { assistantContent := [], newSessionId := .null,
        ui := beginExchange tickClock "hi".toList ChatState.initial }).assistantContent =
      "\n\n🔧 正在调用工具: search\n参数: null".toList :=
  ⟨rfl, rfl⟩

/-- C10. A `tool_call` or `tool_executing` frame followed by a `tool_result` frame adds to
the accumulated text, in this order: the call annotation with the tool name `t` (the
frame's `tool_name`, or `未知工具` when the frame has none), then, when the frame has
arguments, `\n参数: ` and their `JSON.stringify(·, null, 2)` dump (in which a number that is
not finite is printed as `null`), then the completion annotation.  After each of the two
frames the in-progress entry shows the accumulated text and its `isStreaming` is what it
was before, true. -/
theorem C10_tool_annotations (clock : Nat → Text) (idx : Nat) (v w : Json) (a : Vars)
    (t dump : Text) (m : Message)
    (hv : v.prop "type".toList = some (.str "tool_call".toList) ∨
      v.prop "type".toList = some (.str "tool_executing".toList))
    (hw : w.prop "type".toList = some (.str "tool_result".toList))
    (hname : (v.prop "tool_name".toList = some (.str t) ∧ t ≠ []) ∨
      (truthy? (v.prop "tool_name".toList) = false ∧ t = "未知工具".toList))
    (hargs : (∃ args, v.prop "tool_args".toList = some args ∧ args.truthy = true ∧
        dump = "\n参数: ".toList ++ jsonStringify2 args) ∨
      (truthy? (v.prop "tool_args".toList) = false ∧ dump = []))
    (_hm : a.ui.messages[idx]? = some (some m)) (hstream : m.isStreaming = some true) :
    (applyFrame clock idx w (applyFrame clock idx v a)).assistantContent =
      a.assistantContent ++ "\n\n🔧 正在调用工具: ".toList ++ t ++ dump
        ++ "\n📊 工具执行完成\n\n".toList ∧
    (∃ m1, (applyFrame clock idx v a).ui.messages[idx]? = some (some m1) ∧
      m1.isStreaming = m.isStreaming ∧
      m1.content = .str (a.assistantContent ++ "\n\n🔧 正在调用工具: ".toList ++ t ++ dump)) ∧
    (∃ m2, (applyFrame clock idx w (applyFrame clock idx v a)).ui.messages[idx]? =
        some (some m2) ∧
      m2.isStreaming = m.isStreaming ∧
      m2.content = .str (a.assistantContent ++ "\n\n🔧 正在调用工具: ".toList ++ t ++ dump
        ++ "\n📊 工具执行完成\n\n".toList)) := by
  have e1 := applyFrame_tool_call clock idx v a t dump hv hname hargs
  have e2 := applyFrame_tool_result clock idx w (applyFrame clock idx v a) hw
  have c1 := accumulate_entry clock idx
    (a.assistantContent ++ ("\n\n🔧 正在调用工具: ".toList ++ t ++ dump)) (adoptSession v a)
  have c2 := accumulate_entry clock idx
    ((applyFrame clock idx v a).assistantContent ++ "\n📊 工具执行完成\n\n".toList)
    (adoptSession w (applyFrame clock idx v a))
  rw [← e1] at c1
  rw [← e2] at c2
  have hassoc : a.assistantContent ++ ("\n\n🔧 正在调用工具: ".toList ++ t ++ dump) =
      a.assistantContent ++ "\n\n🔧 正在调用工具: ".toList ++ t ++ dump := by
    simp only [List.append_assoc]
  rw [hassoc] at c1
  rw [c1.1] at c2
  refine ⟨c2.1, ⟨_, c1.2, ?_, rfl⟩, ⟨_, c2.2, ?_, rfl⟩⟩
  · rw [hstream]
  · rw [hstream]

/-- Scenario C: `search` called with the arguments `q = x`, then the result. -/
theorem C10_tool_annotations_witness :
    (applyFrame tickClock 1 (frameOf [("type", "tool_result")])
      (applyFrame tickClock 1 searchCall
        { assistantContent := [], newSessionId := .null,
          ui := beginExchange tickClock "hi".toList ChatState.initial })).assistantContent =
      [] ++ "\n\n🔧 正在调用工具: ".toList ++ "search".toList
        ++ "\n参数: \x7b\n  \"q\": \"x\"\n\x7d".toList ++ "\n📊 工具执行完成\n\n".toList :=
  (C10_tool_annotations tickClock 1 searchCall (frameOf [("type", "tool_result")])
    { assistantContent := [], newSessionId := .null,
      ui := beginExchange tickClock "hi".toList ChatState.initial }
    "search".toList "\n参数: \x7b\n  \"q\": \"x\"\n\x7d".toList
    ⟨.assistant, .str [], tickClock 1, some true⟩
    (Or.inl rfl) rfl (Or.inl ⟨rfl, by decide⟩)
    (Or.inl ⟨.obj [("q".toList, .str "x".toList)], rfl, rfl, rfl⟩) rfl rfl).1

/-! ## C15 and C16: what an exchange does to the transcript -/

/-- C15. A streaming exchange whose body is read to its end leaves the transcript equal to
the old transcript followed by exactly two entries: the user message with the content
`message` and one assistant message with `isStreaming` false. -/
theorem C15_completed_exchange_appends_two (parse : Text → Option Json) (clock : Nat → Text)
    (message : Text) (status : Nat) (chunks : List (List Nat)) (s : ChatState) :
    ∃ content ts, (handleStreamResponse parse clock s message
        (.response status (some ⟨chunks, .done⟩)) s).messages =
      s.messages ++ [some ⟨.user, .str message, clock s.ticks, none⟩,
        some ⟨.assistant, .str content, ts, some false⟩] :=
  ⟨_, _, completed_messages parse clock message status chunks s⟩

theorem exchangeVars_inFlight (clock : Nat → Text) (message : Text) (frames : List Json)
    (s : ChatState) :
    InFlight s.messages (userEntry clock message s) (exchangeVars clock message frames s) := by
  unfold exchangeVars
  apply applyFrames_inFlight
  exact ⟨clock (s.ticks + 1), by simp [beginExchange_messages]⟩

theorem inFlight_shape {T : List (Option Message)} {u : Message} {a : Vars}
    (h : InFlight T u a) :
    a.ui.messages.length = T.length + 2 ∧ a.ui.messages.dropLast = T ++ [some u] := by
  obtain ⟨ts, hts⟩ := h
  rw [hts, dropLast_append_pair]
  simp

/-- C16. At any point of an exchange (after any parsed values), the update of a further
frame and the finalization step leave the length of the transcript and every entry but
the last one, the in-progress assistant entry, as they were: the old transcript followed
by the user entry. -/
theorem C16_updates_touch_only_last_entry (clock : Nat → Text) (message : Text)
    (frames : List Json) (v : Json) (s : ChatState) :
    (exchangeVars clock message frames s).ui.messages.dropLast =
      s.messages ++ [some (userEntry clock message s)] ∧
    (applyFrame clock (s.messages.length + 1) v
        (exchangeVars clock message frames s)).ui.messages.length =
      (exchangeVars clock message frames s).ui.messages.length ∧
    (applyFrame clock (s.messages.length + 1) v
        (exchangeVars clock message frames s)).ui.messages.dropLast =
      (exchangeVars clock message frames s).ui.messages.dropLast ∧
    (finalize clock s (s.messages.length + 1)
        (exchangeVars clock message frames s)).messages.length =
      (exchangeVars clock message frames s).ui.messages.length ∧
    (finalize clock s (s.messages.length + 1)
        (exchangeVars clock message frames s)).messages.dropLast =
      (exchangeVars clock message frames s).ui.messages.dropLast := by
  have h0 := exchangeVars_inFlight clock message frames s
  have h1 := applyFrame_inFlight clock s.messages (userEntry clock message s) v _ h0
  have hf := finalize_messages clock s s.messages (userEntry clock message s) _ h0
  have e0 := inFlight_shape h0
  have e1 := inFlight_shape h1
  refine ⟨e0.2, e1.1.trans e0.1.symm, e1.2.trans e0.2.symm, ?_, ?_⟩
  · rw [hf, e0.1]; simp
  · rw [hf, e0.2, dropLast_append_pair]

/-! ## C19: clearing -/

/-- C19. After `handleClear` the transcript is empty and the session identifier is `null`,
whatever they were; the request of the next exchange carries `session_id: null` and its
loop starts without a session. -/
theorem C19_clear_discards_transcript_and_session (clock : Nat → Text) (message : Text)
    (s : ChatState) :
    (handleClear s).messages = [] ∧ (handleClear s).sessionId = Json.null ∧
    chatRequest message (handleClear s) =
      .obj [("message".toList, .str message), ("session_id".toList, Json.null)] ∧
    (loopInit (handleClear s)
      (beginExchange clock message (handleClear s))).2.vars.newSessionId = Json.null :=
  ⟨rfl, rfl, rfl, rfl⟩

/-! ## C20: the non-streaming exchange -/

theorem orElse2_spec (x y : Option Json) (d : Text) :
    (∀ v, x = some v → v.truthy = true → orElse2 x y d = v) ∧
    (truthy? x = false → ∀ w, y = some w → w.truthy = true → orElse2 x y d = w) ∧
    (truthy? x = false → truthy? y = false → orElse2 x y d = .str d) := by
  refine ⟨?_, ?_, ?_⟩
  · intro v hx hv
    simp [orElse2, hx, hv]
  · intro hx w hy hw
    have : orElse2 x y d = orElse y d := by
      cases x with
      | none => rfl
      | some v =>
        have hv : v.truthy = false := hx
        simp [orElse2, hv]
    rw [this]
    simp [orElse, hy, hw]
  · intro hx hy
    have : orElse2 x y d = orElse y d := by
      cases x with
      | none => rfl
      | some v =>
        have hv : v.truthy = false := hx
        simp [orElse2, hv]
    rw [this, orElse_of_falsy hy]

theorem acceptResponse_messages (clock : Nat → Text) (rendered : ChatState) (response : Json)
    (s : ChatState) :
    (acceptResponse clock rendered response s).messages =
      s.messages ++ [some ⟨.assistant,
        orElse2 (response.prop "message".toList) (response.prop "response".toList)
          "抱歉，我没有理解".toList, clock s.ticks, none⟩] := by
  unfold acceptResponse
  cases response.prop "session_id".toList with
  | none => by_cases ho : rendered.isOpen = true <;> simp [ho, pushMessage]
  | some v =>
    by_cases hc : (v.truthy && !rendered.sessionId.truthy) = true <;>
      by_cases ho : rendered.isOpen = true <;> simp [ho, hc, pushMessage]

theorem acceptResponse_sessionId (clock : Nat → Text) (rendered : ChatState) (response : Json)
    (s : ChatState) :
    (acceptResponse clock rendered response s).sessionId =
      match response.prop "session_id".toList with
      | some v => if v.truthy && !rendered.sessionId.truthy then v else s.sessionId
      | none => s.sessionId := by
  unfold acceptResponse
  cases response.prop "session_id".toList with
  | none => by_cases ho : rendered.isOpen = true <;> simp [ho, pushMessage]
  | some v =>
    by_cases hc : (v.truthy && !rendered.sessionId.truthy) = true <;>
      by_cases ho : rendered.isOpen = true <;> simp [ho, hc, pushMessage]

theorem handleNormalResponse_resolved (clock : Nat → Text) (rendered : ChatState)
    (message : Text) (response : Json) (s : ChatState) (h : response ≠ Json.null) :
    handleNormalResponse clock rendered message (.resolved response) s =
      { acceptResponse clock rendered response (beginNormal clock message s) with
        isLoading := false } := by
  cases response with
  | null => exact absurd rfl h
  | _ => rfl

/-- C20. A non-streaming exchange whose request resolves with a response object leaves the
old transcript followed by the user message and exactly one assistant message, appended
whole and without an `isStreaming` flag, whose content is `response.message`, else
`response.response`, else the fallback `抱歉，我没有理解`; the session identifier becomes
`response.session_id` only if none was set, and stays as it was otherwise. -/
theorem C20_normal_exchange (clock : Nat → Text) (message : Text) (response : Json)
    (s : ChatState) (h : response ≠ Json.null) :
    ∃ c, (handleNormalResponse clock s message (.resolved response) s).messages =
        s.messages ++ [some ⟨.user, .str message, clock s.ticks, none⟩,
          some ⟨.assistant, c, clock (s.ticks + 1), none⟩] ∧
      (∀ x, response.prop "message".toList = some x → x.truthy = true → c = x) ∧
      (truthy? (response.prop "message".toList) = false →
        ∀ y, response.prop "response".toList = some y → y.truthy = true → c = y) ∧
      (truthy? (response.prop "message".toList) = false →
        truthy? (response.prop "response".toList) = false → c = .str "抱歉，我没有理解".toList) ∧
      (s.sessionId.truthy = true →
        (handleNormalResponse clock s message (.resolved response) s).sessionId = s.sessionId) ∧
      (s.sessionId.truthy = false → ∀ sid, response.prop "session_id".toList = some sid →
        sid.truthy = true →
        (handleNormalResponse clock s message (.resolved response) s).sessionId = sid) ∧
      (truthy? (response.prop "session_id".toList) = false →
        (handleNormalResponse clock s message (.resolved response) s).sessionId =
          s.sessionId) := by
  have hspec := orElse2_spec (response.prop "message".toList) (response.prop "response".toList)
    "抱歉，我没有理解".toList
  have hm := acceptResponse_messages clock s response (beginNormal clock message s)
  have hs := acceptResponse_sessionId clock s response (beginNormal clock message s)
  have hb : (beginNormal clock message s).messages =
      s.messages ++ [some ⟨.user, .str message, clock s.ticks, none⟩] := by
    simp [beginNormal, pushMessage]
  have hbt : (beginNormal clock message s).ticks = s.ticks + 1 := by
    simp [beginNormal, pushMessage]
  have hbs : (beginNormal clock message s).sessionId = s.sessionId := by
    simp [beginNormal, pushMessage]
  rw [hb, hbt] at hm
  rw [hbs] at hs
  rw [handleNormalResponse_resolved clock s message response s h]
  refine ⟨_, ?_, hspec.1, hspec.2.1, hspec.2.2, ?_, ?_, ?_⟩
  · show (acceptResponse clock s response (beginNormal clock message s)).messages = _
    rw [hm]; simp
  · intro ht
    show (acceptResponse clock s response (beginNormal clock message s)).sessionId = _
    rw [hs]
    cases response.prop "session_id".toList with
    | none => rfl
    | some v => simp [ht]
  · intro hf sid hsid ht
    show (acceptResponse clock s response (beginNormal clock message s)).sessionId = _
    rw [hs, hsid]
    simp [hf, ht]
  · intro hf
    show (acceptResponse clock s response (beginNormal clock message s)).sessionId = _
    rw [hs]
    cases hp : response.prop "session_id".toList with
    | none => rfl
    | some v =>
      rw [hp] at hf
      have hv : v.truthy = false := hf
      simp [hv]

/-- A response with the session `n1` and the message `ok`, from the state at mount. -/
theorem C20_normal_exchange_witness :
    (handleNormalResponse tickClock ChatState.initial "hi".toList (.resolved replyWithSession)
        ChatState.initial).messages =
      [some ⟨.user, .str "hi".toList, tickClock 0, none⟩,
        some ⟨.assistant, .str "ok".toList, tickClock 1, none⟩] ∧
    (handleNormalResponse tickClock ChatState.initial "hi".toList (.resolved replyWithSession)
        ChatState.initial).sessionId = .str "n1".toList := by
  obtain ⟨c, h1, h2, _, _, _, h6, _⟩ :=
    C20_normal_exchange tickClock "hi".toList replyWithSession ChatState.initial
      (fun e => Json.noConfusion e)
  exact ⟨rfl, h6 rfl (.str "n1".toList) rfl rfl⟩

/-! ## C18: the session identifier across exchanges -/

theorem stream_keeps_session (parse : Text → Option Json) (clock : Nat → Text)
    (message : Text) (net : FetchResult) (s : ChatState) (h : s.sessionId.truthy = true) :
    (handleStreamResponse parse clock s message net s).sessionId = s.sessionId := by
  cases net with
  | rejected => rfl
  | response status body =>
    cases body with
    | none => rfl
    | some b =>
      obtain ⟨chunks, ending⟩ := b
      rw [handle_sessionId]
      have hv : (exchangeLoop parse clock message chunks s).2.vars = _ :=
        readLoop_vars parse clock _ chunks s (beginExchange clock message s)
      rw [hv]
      exact (applyFrames_session_keep clock _ _
        { assistantContent := [], newSessionId := s.sessionId,
          ui := beginExchange clock message s } h).2

theorem normal_keeps_session (clock : Nat → Text) (message : Text) (net : ChatResult)
    (s : ChatState) (h : s.sessionId.truthy = true) :
    (handleNormalResponse clock s message net s).sessionId = s.sessionId := by
  cases net with
  | rejected e =>
    simp only [handleNormalResponse, tryNormal, catchBlock, notifyError, interceptError]
    split
    · split <;> rfl
    · rfl
  | resolved response =>
    by_cases hn : response = Json.null
    · subst hn; rfl
    · rw [handleNormalResponse_resolved clock s message response s hn]
      show (acceptResponse clock s response (beginNormal clock message s)).sessionId = _
      rw [acceptResponse_sessionId]
      cases response.prop "session_id".toList with
      | none => rfl
      | some v => simp [h, beginNormal, pushMessage]

/-- C18. Across any sequence of exchanges, in either mode and whatever their outcome, with
no clear in between, a session identifier that is set stays as it is: no frame and no
response replaces it. -/
theorem C18_session_immutable (parse : Text → Option Json) (clock : Nat → Text)
    (es : List Exchange) (s : ChatState) (h : s.sessionId.truthy = true) :
    (runExchanges parse clock es s).sessionId = s.sessionId := by
  induction es generalizing s with
  | nil => rfl
  | cons e es ih =>
    have step : (runExchange parse clock s e).sessionId = s.sessionId := by
      cases e with
      | stream message net => exact stream_keeps_session parse clock message net s h
      | normal message net => exact normal_keeps_session clock message net s h
    have := ih (runExchange parse clock s e) (by rw [step]; exact h)
    simp only [runExchanges, List.foldl_cons] at this ⊢
    rw [this, step]

/-- With the session `s0` set, a stream whose frames carry `s1` and `s2` and a response that
carries `n1` leave the session `s0`. -/
theorem C18_session_immutable_witness :
    (runExchanges wireParse tickClock
      [.stream "hi".toList (.response 200 (some ⟨twoSessions, .done⟩)),
        .normal "yo".toList (.resolved replyWithSession)] sessionSet).sessionId =
      .str "s0".toList :=
  C18_session_immutable wireParse tickClock
    [.stream "hi".toList (.response 200 (some ⟨twoSessions, .done⟩)),
      .normal "yo".toList (.resolved replyWithSession)] sessionSet rfl

/-! ## C12 and C13: frames that do not touch the transcript -/

/-- What lines 102-155 do depends on the parsed value alone: nothing, an addition to the
accumulated text, or a notification. -/
theorem dispatch_uniform (clock : Nat → Text) (idx : Nat) (v : Json) :
    (∀ a, dispatch clock idx v a = a) ∨
    (∃ t, ∀ a, dispatch clock idx v a = accumulate clock idx (a.assistantContent ++ t) a) ∨
    (∃ n, ∀ a, dispatch clock idx v a = { a with ui := notifyError n a.ui }) := by
  cases h1 : (strictEq (v.prop "type".toList) "content".toList &&
      truthy? (v.prop "content".toList)) with
  | true =>
    cases hc : v.prop "content".toList with
    | none =>
      exact Or.inl fun a => by
        unfold dispatch
        rw [if_pos h1]
        simp only [hc]
    | some c =>
      cases ht : c.toText with
      | none =>
        exact Or.inl fun a => by
          unfold dispatch
          rw [if_pos h1]
          simp only [hc, ht]
      | some t =>
        exact Or.inr (Or.inl ⟨t, fun a => by
          unfold dispatch
          rw [if_pos h1]
          simp only [hc, ht]⟩)
  | false =>
    cases h2 : (strictEq (v.prop "type".toList) "tool_call".toList ||
        strictEq (v.prop "type".toList) "tool_executing".toList) with
    | true =>
      cases hn : (orElse (v.prop "tool_name".toList) "未知工具".toList).toText with
      | none =>
        exact Or.inl fun a => by
          unfold dispatch
          simp only [h1, h2, hn, Bool.false_eq_true, if_false, if_true]
      | some name =>
        cases ha : v.prop "tool_args".toList with
        | none =>
          exact Or.inr (Or.inl ⟨"\n\n🔧 正在调用工具: ".toList ++ name, fun a => by
            unfold dispatch
            simp only [h1, h2, hn, ha, Bool.false_eq_true, if_false, if_true]⟩)
        | some args =>
          cases hat : args.truthy with
          | true =>
            exact Or.inr (Or.inl ⟨("\n\n🔧 正在调用工具: ".toList ++ name) ++
                ("\n参数: ".toList ++ jsonStringify2 args), fun a => by
              unfold dispatch
              simp only [h1, h2, hn, ha, hat, Bool.false_eq_true, if_false, if_true,
                List.append_assoc]⟩)
          | false =>
            exact Or.inr (Or.inl ⟨"\n\n🔧 正在调用工具: ".toList ++ name, fun a => by
              unfold dispatch
              simp only [h1, h2, hn, ha, hat, Bool.false_eq_true, if_false, if_true]⟩)
    | false =>
      cases h3 : strictEq (v.prop "type".toList) "tool_result".toList with
      | true =>
        exact Or.inr (Or.inl ⟨"\n📊 工具执行完成\n\n".toList, fun a => by
          unfold dispatch
          simp only [h1, h2, h3, Bool.false_eq_true, if_false, if_true]⟩)
      | false =>
        cases h4 : strictEq (v.prop "type".toList) "done".toList with
        | true =>
          exact Or.inl fun a => by
            unfold dispatch
            simp only [h1, h2, h3, h4, Bool.false_eq_true, if_false, if_true]
        | false =>
          cases h5 : strictEq (v.prop "type".toList) "error".toList with
          | true =>
            exact Or.inr (Or.inr ⟨orElse (v.prop "message".toList) "发生错误".toList, fun a => by
              unfold dispatch
              simp only [h1, h2, h3, h4, h5, Bool.false_eq_true, if_false, if_true]⟩)
          | false =>
            exact Or.inl fun a => by
              unfold dispatch
              simp only [h1, h2, h3, h4, h5, Bool.false_eq_true, if_false]

theorem applyFrame_of_ne_null (clock : Nat → Text) (idx : Nat) (v : Json) (a : Vars)
    (h : v ≠ Json.null) :
    applyFrame clock idx v a = dispatch clock idx v (adoptSession v a) := by
  cases v with
  | null => exact absurd rfl h
  | _ => rfl

theorem withoutSession_eq {x y : ChatState} (h : withoutSession x = withoutSession y) :
    y = { x with sessionId := y.sessionId } := by
  cases x
  cases y
  simp only [withoutSession, ChatState.mk.injEq] at h
  obtain ⟨h1, h2, h3, h4, _, h6, h7, h8, h9⟩ := h
  subst h1 h2 h3 h4 h6 h7 h8 h9
  rfl

theorem adoptSession_sameButSession (v : Json) (a : Vars) :
    SameButSession (adoptSession v a) a := by
  rcases adoptSession_cases v a with e | ⟨sid, _, _, _, e⟩ <;> rw [e] <;> exact ⟨rfl, rfl⟩

theorem dispatch_sameButSession (clock : Nat → Text) (idx : Nat) (v : Json) (a b : Vars)
    (h : SameButSession a b) :
    SameButSession (dispatch clock idx v a) (dispatch clock idx v b) := by
  obtain ⟨hc, hu⟩ := h
  have hb := withoutSession_eq hu
  rcases dispatch_uniform clock idx v with e | ⟨t, e⟩ | ⟨n, e⟩
  · rw [e a, e b]; exact ⟨hc, hu⟩
  · rw [e a, e b]
    refine ⟨by simp [accumulate, hc], ?_⟩
    simp only [accumulate, hc]
    rw [hb]
    rfl
  · rw [e a, e b]
    refine ⟨hc, ?_⟩
    show withoutSession (notifyError n a.ui) = withoutSession (notifyError n b.ui)
    rw [hb]
    rfl

theorem applyFrame_sameButSession (clock : Nat → Text) (idx : Nat) (v : Json) (a b : Vars)
    (h : SameButSession a b) :
    SameButSession (applyFrame clock idx v a) (applyFrame clock idx v b) := by
  by_cases hv : v = Json.null
  · subst hv; exact h
  · rw [applyFrame_of_ne_null clock idx v a hv, applyFrame_of_ne_null clock idx v b hv]
    apply dispatch_sameButSession
    have ha := adoptSession_sameButSession v a
    have hb := adoptSession_sameButSession v b
    exact ⟨ha.1.trans (h.1.trans hb.1.symm), ha.2.trans (h.2.trans hb.2.symm)⟩

theorem applyFrames_sameButSession (clock : Nat → Text) (idx : Nat) (fs : List Json) :
    ∀ a b : Vars, SameButSession a b →
      SameButSession (applyFrames clock idx fs a) (applyFrames clock idx fs b) := by
  induction fs with
  | nil => intro a b h; exact h
  | cons v vs ih =>
    intro a b h
    exact ih _ _ (applyFrame_sameButSession clock idx v a b h)

theorem adoptSession_sameTranscript (v : Json) (a : Vars) :
    SameTranscript (adoptSession v a) a := by
  rcases adoptSession_cases v a with e | ⟨sid, _, _, _, e⟩ <;> rw [e] <;> exact ⟨rfl, rfl, rfl⟩

theorem dispatch_sameTranscript (clock : Nat → Text) (idx : Nat) (v : Json) (a b : Vars)
    (h : SameTranscript a b) :
    SameTranscript (dispatch clock idx v a) (dispatch clock idx v b) := by
  obtain ⟨hc, hm, ht⟩ := h
  rcases dispatch_uniform clock idx v with e | ⟨t, e⟩ | ⟨n, e⟩
  · rw [e a, e b]; exact ⟨hc, hm, ht⟩
  · rw [e a, e b]
    simp [SameTranscript, accumulate, writeAssistant, hc, hm, ht]
  · rw [e a, e b]
    exact ⟨hc, hm, ht⟩

theorem applyFrame_sameTranscript (clock : Nat → Text) (idx : Nat) (v : Json) (a b : Vars)
    (h : SameTranscript a b) :
    SameTranscript (applyFrame clock idx v a) (applyFrame clock idx v b) := by
  by_cases hv : v = Json.null
  · subst hv; exact h
  · rw [applyFrame_of_ne_null clock idx v a hv, applyFrame_of_ne_null clock idx v b hv]
    apply dispatch_sameTranscript
    have ha := adoptSession_sameTranscript v a
    have hb := adoptSession_sameTranscript v b
    exact ⟨ha.1.trans (h.1.trans hb.1.symm), ha.2.1.trans (h.2.1.trans hb.2.1.symm),
      ha.2.2.trans (h.2.2.trans hb.2.2.symm)⟩

theorem applyFrames_sameTranscript (clock : Nat → Text) (idx : Nat) (fs : List Json) :
    ∀ a b : Vars, SameTranscript a b →
      SameTranscript (applyFrames clock idx fs a) (applyFrames clock idx fs b) := by
  induction fs with
  | nil => intro a b h; exact h
  | cons v vs ih =>
    intro a b h
    exact ih _ _ (applyFrame_sameTranscript clock idx v a b h)

theorem dispatch_unknown (clock : Nat → Text) (idx : Nat) (v : Json) (a : Vars)
    (h : isKnownType v = false) : dispatch clock idx v a = a := by
  unfold isKnownType at h
  simp only [Bool.or_eq_false_iff] at h
  obtain ⟨⟨⟨⟨⟨⟨_, h2⟩, h3⟩, h4⟩, h5⟩, h6⟩, h7⟩ := h
  unfold dispatch
  simp only [h2, h3, h4, h5, h6, h7, Bool.false_and, Bool.or_false, Bool.false_eq_true,
    if_false]

theorem sameButSession_fields {a b : Vars} (h : SameButSession a b) :
    a.assistantContent = b.assistantContent ∧ a.ui.messages = b.ui.messages ∧
      a.ui.notices = b.ui.notices := by
  have hm : (withoutSession a.ui).messages = (withoutSession b.ui).messages := by rw [h.2]
  have hn : (withoutSession a.ui).notices = (withoutSession b.ui).notices := by rw [h.2]
  exact ⟨h.1, hm, hn⟩

/-- C12 (amended). A parsed value whose `type` is none of the frame kinds leaves the
accumulated text, the transcript and the notifications as they were, and so do they end
after the following frames as if the value had been absent.  The session identifier is
untouched too when the value carries no `session_id` or a session is already set; when
it carries one and no session is set, that identifier is adopted, as on a frame of any
kind. -/
theorem C12_unknown_type_dropped (clock : Nat → Text) (idx : Nat) (v : Json)
    (post : List Json) (a : Vars) (h : isKnownType v = false) :
    (applyFrame clock idx v a).assistantContent = a.assistantContent ∧
    (applyFrame clock idx v a).ui.messages = a.ui.messages ∧
    (applyFrame clock idx v a).ui.notices = a.ui.notices ∧
    ((carriesSession v = false ∨ a.newSessionId.truthy = true) →
      applyFrame clock idx v a = a) ∧
    (∀ sid, v.prop "session_id".toList = some sid → sid.truthy = true →
      a.newSessionId.truthy = false → (applyFrame clock idx v a).ui.sessionId = sid) ∧
    (applyFrames clock idx (v :: post) a).assistantContent =
      (applyFrames clock idx post a).assistantContent ∧
    (applyFrames clock idx (v :: post) a).ui.messages =
      (applyFrames clock idx post a).ui.messages ∧
    (applyFrames clock idx (v :: post) a).ui.notices =
      (applyFrames clock idx post a).ui.notices := by
  have hsame : SameButSession (applyFrame clock idx v a) a := by
    by_cases hv : v = Json.null
    · subst hv; exact ⟨rfl, rfl⟩
    · rw [applyFrame_of_ne_null clock idx v a hv, dispatch_unknown clock idx v _ h]
      exact adoptSession_sameButSession v a
  have hrest := sameButSession_fields
    (applyFrames_sameButSession clock idx post _ _ hsame)
  have hone := sameButSession_fields hsame
  refine ⟨hone.1, hone.2.1, hone.2.2, ?_, ?_, hrest.1, hrest.2.1, hrest.2.2⟩
  · intro hs
    by_cases hv : v = Json.null
    · subst hv; rfl
    · rw [applyFrame_of_ne_null clock idx v a hv, dispatch_unknown clock idx v _ h]
      rcases adoptSession_cases v a with e | ⟨sid, h1, h2, h3, _⟩
      · exact e
      · rcases hs with hs | hs
        · unfold carriesSession at hs
          rw [h1] at hs
          rw [show truthy? (some sid) = sid.truthy from rfl, h2] at hs
          exact absurd hs (by simp)
        · rw [h3] at hs
          exact absurd hs (by simp)
  · intro sid hsid ht hn
    exact (applyFrame_session_adopt clock idx v sid a hn hsid ht).2

/-- A `ping` frame without a session identifier changes nothing. -/
theorem C12_unknown_type_dropped_witness :
    applyFrame tickClock 1 (frameOf [("type", "ping")])
        (exchangeVars tickClock "hi".toList [] ChatState.initial) =
      exchangeVars tickClock "hi".toList [] ChatState.initial :=
  (C12_unknown_type_dropped tickClock 1 (frameOf [("type", "ping")]) []
    (exchangeVars tickClock "hi".toList [] ChatState.initial) rfl).2.2.2.1 (Or.inl rfl)

/-- C12 as stated fails on a body whose only line is a frame of the unknown type `ping` that
carries the session identifier `s9`: the exchange ends with the session `s9`, and with
no session when the line is absent. -/
theorem C12_counterexample :
    (exchangeLoop wireParse tickClock "hi".toList pingWithSession ChatState.initial).2.frames =
        [frameOf [("type", "ping"), ("session_id", "s9")]] ∧
    isKnownType (frameOf [("type", "ping"), ("session_id", "s9")]) = false ∧
    (handleStreamResponse wireParse tickClock ChatState.initial "hi".toList
        (.response 200 (some ⟨pingWithSession, .done⟩)) ChatState.initial).sessionId =
      .str "s9".toList ∧
    (handleStreamResponse wireParse tickClock ChatState.initial "hi".toList
        (.response 200 (some ⟨[], .done⟩)) ChatState.initial).sessionId = Json.null ∧
    (handleStreamResponse wireParse tickClock ChatState.initial "hi".toList
        (.response 200 (some ⟨pingWithSession, .done⟩)) ChatState.initial).sessionId ≠
      (handleStreamResponse wireParse tickClock ChatState.initial "hi".toList
        (.response 200 (some ⟨[], .done⟩)) ChatState.initial).sessionId := by
  refine ⟨rfl, rfl, rfl, rfl, ?_⟩
  intro h
  have h1 : (handleStreamResponse wireParse tickClock ChatState.initial "hi".toList
        (.response 200 (some ⟨pingWithSession, .done⟩)) ChatState.initial).sessionId =
      .str "s9".toList := rfl
  have h2 : (handleStreamResponse wireParse tickClock ChatState.initial "hi".toList
        (.response 200 (some ⟨[], .done⟩)) ChatState.initial).sessionId = Json.null := rfl
  rw [h1, h2] at h
  exact Json.noConfusion h

theorem dispatch_error (clock : Nat → Text) (idx : Nat) (v : Json) (a : Vars)
    (h : v.prop "type".toList = some (.str "error".toList)) :
    dispatch clock idx v a =
      { a with ui := notifyError (orElse (v.prop "message".toList) "发生错误".toList) a.ui } := by
  unfold dispatch
  simp only [h]
  rfl

/-- C13. An `error` frame raises exactly one notification, with the frame's `message` or
with `发生错误` when the frame has none, and leaves the transcript and the accumulated
text as they were; after the frames that follow it the transcript and the text are what
they are without it. -/
theorem C13_error_frame_notifies (clock : Nat → Text) (idx : Nat) (v : Json)
    (post : List Json) (a : Vars) (msg : Json)
    (htype : v.prop "type".toList = some (.str "error".toList))
    (hmsg : (v.prop "message".toList = some msg ∧ msg.truthy = true) ∨
      (truthy? (v.prop "message".toList) = false ∧ msg = .str "发生错误".toList)) :
    (applyFrame clock idx v a).ui.notices = a.ui.notices ++ [.error msg] ∧
    (applyFrame clock idx v a).ui.messages = a.ui.messages ∧
    (applyFrame clock idx v a).assistantContent = a.assistantContent ∧
    (applyFrames clock idx (v :: post) a).ui.messages =
      (applyFrames clock idx post a).ui.messages ∧
    (applyFrames clock idx (v :: post) a).assistantContent =
      (applyFrames clock idx post a).assistantContent := by
  have hv : v ≠ Json.null := by
    intro e
    rw [e] at htype
    exact Option.noConfusion htype
  have hor : orElse (v.prop "message".toList) "发生错误".toList = msg := by
    rcases hmsg with ⟨h1, h2⟩ | ⟨h1, h2⟩
    · rw [h1]; simp [orElse, h2]
    · rw [orElse_of_falsy h1, h2]
  have hadopt := sameButSession_fields (adoptSession_sameButSession v a)
  have hone : applyFrame clock idx v a =
      { adoptSession v a with ui := notifyError msg (adoptSession v a).ui } := by
    rw [applyFrame_of_ne_null clock idx v a hv, dispatch_error clock idx v _ htype, hor]
  have hst : SameTranscript (applyFrame clock idx v a) a := by
    rw [hone]
    have := adoptSession_sameTranscript v a
    exact ⟨this.1, this.2.1, this.2.2⟩
  have hrest := applyFrames_sameTranscript clock idx post _ _ hst
  refine ⟨?_, ?_, ?_, hrest.2.1, hrest.1⟩
  · rw [hone]
    show (adoptSession v a).ui.notices ++ [Notice.error msg] = _
    rw [hadopt.2.2]
  · rw [hone]; exact hadopt.2.1
  · rw [hone]; exact hadopt.1

/-- An `error` frame with the message `boom`, before a `content` frame. -/
theorem C13_error_frame_notifies_witness :
    (applyFrame tickClock 1 (frameOf [("type", "error"), ("message", "boom")])
        (exchangeVars tickClock "hi".toList [] ChatState.initial)).ui.notices =
      [] ++ [.error (.str "boom".toList)] ∧
    (applyFrames tickClock 1
        [frameOf [("type", "error"), ("message", "boom")],
          frameOf [("type", "content"), ("content", "Hel")]]
        (exchangeVars tickClock "hi".toList [] ChatState.initial)).assistantContent =
      (applyFrames tickClock 1 [frameOf [("type", "content"), ("content", "Hel")]]
        (exchangeVars tickClock "hi".toList [] ChatState.initial)).assistantContent :=
  ⟨(C13_error_frame_notifies tickClock 1 (frameOf [("type", "error"), ("message", "boom")])
      [frameOf [("type", "content"), ("content", "Hel")]]
      (exchangeVars tickClock "hi".toList [] ChatState.initial) (.str "boom".toList)
      rfl (Or.inl ⟨rfl, rfl⟩)).1,
    (C13_error_frame_notifies tickClock 1 (frameOf [("type", "error"), ("message", "boom")])
      [frameOf [("type", "content"), ("content", "Hel")]]
      (exchangeVars tickClock "hi".toList [] ChatState.initial) (.str "boom".toList)
      rfl (Or.inl ⟨rfl, rfl⟩)).2.2.2.2⟩

/-! ## C17: the timestamp of the in-progress entry -/

theorem applyFrame_ticks (clock : Nat → Text) (idx : Nat) (v : Json) (a : Vars) :
    a.ui.ticks ≤ (applyFrame clock idx v a).ui.ticks := by
  by_cases hv : v = Json.null
  · subst hv; exact Nat.le_refl _
  · rw [applyFrame_of_ne_null clock idx v a hv]
    have hb := (adoptSession_sameTranscript v a).2.2
    rcases dispatch_cases clock idx v (adoptSession v a) with e | ⟨t, e⟩ | ⟨n, e⟩
    · rw [e, hb]
    · rw [e]
      show a.ui.ticks ≤ (adoptSession v a).ui.ticks + 1
      omega
    · rw [e]
      show a.ui.ticks ≤ (adoptSession v a).ui.ticks
      omega

theorem applyFrames_ticks (clock : Nat → Text) (idx : Nat) (fs : List Json) :
    ∀ a : Vars, a.ui.ticks ≤ (applyFrames clock idx fs a).ui.ticks := by
  induction fs with
  | nil => intro a; exact Nat.le_refl _
  | cons v vs ih =>
    intro a
    exact Nat.le_trans (applyFrame_ticks clock idx v a) (ih _)

theorem exchangeVars_ticks (clock : Nat → Text) (message : Text) (frames : List Json)
    (s : ChatState) : s.ticks + 2 ≤ (exchangeVars clock message frames s).ui.ticks := by
  have h := applyFrames_ticks clock (s.messages.length + 1) frames
    { assistantContent := [], newSessionId := s.sessionId, ui := beginExchange clock message s }
  have hb : (beginExchange clock message s).ticks = s.ticks + 2 := by
    simp [beginExchange, pushMessage]
  unfold exchangeVars
  simp only [hb] at h
  exact h

/-- C17 (amended). The in-progress assistant entry is created with the clock reading of
that moment, and its timestamp is read from the clock again by every frame update that
rewrites the entry and by the finalization: a frame either leaves the transcript as it
is or leaves the entry with the reading taken at that update, and the finalized entry
has the reading taken at finalization; both are later readings than the one at
creation. -/
theorem C17_timestamp_rewritten (parse : Text → Option Json) (clock : Nat → Text)
    (message : Text) (status : Nat) (chunks : List (List Nat)) (frames : List Json)
    (v : Json) (s : ChatState) :
    (beginExchange clock message s).messages =
      s.messages ++ [some (userEntry clock message s),
        some ⟨.assistant, .str [], clock (s.ticks + 1), some true⟩] ∧
    s.ticks + 2 ≤ (exchangeVars clock message frames s).ui.ticks ∧
    ((applyFrame clock (s.messages.length + 1) v
          (exchangeVars clock message frames s)).ui.messages =
        (exchangeVars clock message frames s).ui.messages ∨
      ∃ c, (applyFrame clock (s.messages.length + 1) v
          (exchangeVars clock message frames s)).ui.messages =
        s.messages ++ [some (userEntry clock message s),
          some ⟨.assistant, .str c, clock (exchangeVars clock message frames s).ui.ticks,
            some true⟩]) ∧
    ∃ n c, s.ticks + 2 ≤ n ∧
      (handleStreamResponse parse clock s message (.response status (some ⟨chunks, .done⟩))
          s).messages =
        s.messages ++ [some (userEntry clock message s),
          some ⟨.assistant, .str c, clock n, some false⟩] := by
  refine ⟨beginExchange_messages clock message s, exchangeVars_ticks clock message frames s,
    ?_, ?_⟩
  · have h0 := exchangeVars_inFlight clock message frames s
    by_cases hv : v = Json.null
    · subst hv; exact Or.inl rfl
    · rw [applyFrame_of_ne_null clock _ v _ hv]
      have hb := adoptSession_sameTranscript v (exchangeVars clock message frames s)
      rcases dispatch_cases clock (s.messages.length + 1) v
        (adoptSession v (exchangeVars clock message frames s)) with e | ⟨t, e⟩ | ⟨n, e⟩
      · rw [e]; exact Or.inl hb.2.1
      · rw [e]
        obtain ⟨ts, hts⟩ := h0
        refine Or.inr
          ⟨(adoptSession v (exchangeVars clock message frames s)).assistantContent ++ t, ?_⟩
        simp only [accumulate, writeAssistant, hb.2.1, hb.2.2, hts, setAt_last]
      · rw [e]; exact Or.inl hb.2.1
  · refine ⟨(exchangeLoop parse clock message chunks s).2.vars.ui.ticks,
      finalText (exchangeLoop parse clock message chunks s).2.vars.assistantContent, ?_,
      completed_messages parse clock message status chunks s⟩
    have hv : (exchangeLoop parse clock message chunks s).2.vars = _ :=
      readLoop_vars parse clock _ chunks s (beginExchange clock message s)
    rw [hv]
    exact exchangeVars_ticks clock message _ s

/-- C17 as stated fails on a body with one `content` frame, under a clock whose readings
differ: the entry is created with the reading 1, shows the reading 2 after the frame and
the reading 3 after finalization. -/
theorem C17_counterexample :
    (beginExchange tickClock "hi".toList ChatState.initial).messages =
      [some ⟨.user, .str "hi".toList, tickClock 0, none⟩,
        some ⟨.assistant, .str [], tickClock 1, some true⟩] ∧
    (exchangeLoop wireParse tickClock "hi".toList oneContentLine
        ChatState.initial).2.vars.ui.messages =
      [some ⟨.user, .str "hi".toList, tickClock 0, none⟩,
        some ⟨.assistant, .str "Hel".toList, tickClock 2, some true⟩] ∧
    (handleStreamResponse wireParse tickClock ChatState.initial "hi".toList
        (.response 200 (some ⟨oneContentLine, .done⟩)) ChatState.initial).messages =
      [some ⟨.user, .str "hi".toList, tickClock 0, none⟩,
        some ⟨.assistant, .str "Hel".toList, tickClock 3, some false⟩] ∧
    tickClock 2 ≠ tickClock 1 ∧ tickClock 3 ≠ tickClock 1 :=
  ⟨rfl, rfl, rfl, by decide, by decide⟩

/-! ## C11: the unterminated last line -/

theorem complete_lines_truncate (kept frag : Text) (hfrag : '\n' ∉ frag)
    (hkept : kept = [] ∨ ∃ pre, kept = pre ++ ['\n']) :
    (splitNewline (kept ++ frag)).dropLast = (splitNewline kept).dropLast := by
  rcases hkept with h | ⟨pre, h⟩
  · subst h
    simp [splitNewline_of_not_mem hfrag, splitNewline]
  · subst h
    have e1 : pre ++ ['\n'] ++ frag = pre ++ '\n' :: frag := by simp
    rw [e1, splitNewline_append, splitNewline_of_not_mem hfrag,
      show pre ++ ['\n'] = pre ++ '\n' :: [] from rfl, splitNewline_append]
    simp [splitNewline, List.dropLast_concat]

/-- C11. When the text of a body ends with a fragment that no newline terminates, the
fragment is dropped at the end of the stream: the loop parses the same values and leaves
the same variables and widget state (notifications included), and the handler returns the
same state, as for the body truncated just after its last newline (the empty body when
there is no newline). -/
theorem C11_unterminated_line_discarded (parse : Text → Option Json) (clock : Nat → Text)
    (rendered s : ChatState) (message : Text) (status : Nat) (ending : StreamEnd)
    (chunks truncated : List (List Nat)) (kept frag : Text)
    (h1 : bodyText chunks = kept ++ frag) (h2 : bodyText truncated = kept)
    (hfrag : '\n' ∉ frag) (hkept : kept = [] ∨ ∃ pre, kept = pre ++ ['\n']) :
    (readLoop parse clock (rendered.messages.length + 1) chunks
        (loopInit rendered (beginExchange clock message s))).2 =
      (readLoop parse clock (rendered.messages.length + 1) truncated
        (loopInit rendered (beginExchange clock message s))).2 ∧
    handleStreamResponse parse clock rendered message
        (.response status (some ⟨chunks, ending⟩)) s =
      handleStreamResponse parse clock rendered message
        (.response status (some ⟨truncated, ending⟩)) s := by
  have key : (readLoop parse clock (rendered.messages.length + 1) chunks
        (loopInit rendered (beginExchange clock message s))).2 =
      (readLoop parse clock (rendered.messages.length + 1) truncated
        (loopInit rendered (beginExchange clock message s))).2 := by
    rw [readLoop_eq_fold, readLoop_eq_fold]
    unfold bodyText at h1 h2
    rw [h1, h2, complete_lines_truncate kept frag hfrag hkept]
  refine ⟨key, ?_⟩
  simp only [handleStreamResponse, tryBlock, key]

/-- A `done` frame without its newline, after a complete `content` line, is dropped. -/
theorem C11_unterminated_line_discarded_witness :
    handleStreamResponse wireParse tickClock ChatState.initial "hi".toList
        (.response 200 (some ⟨unterminated, .done⟩)) ChatState.initial =
      handleStreamResponse wireParse tickClock ChatState.initial "hi".toList
        (.response 200 (some ⟨oneContentLine, .done⟩)) ChatState.initial :=
  (C11_unterminated_line_discarded wireParse tickClock ChatState.initial ChatState.initial
    "hi".toList 200 .done unterminated oneContentLine
    "data: \x7b\"type\":\"content\",\"content\":\"Hel\"\x7d\n".toList
    "data: \x7b\"type\":\"done\"\x7d".toList
    (by decide) (by decide) (by decide)
    (Or.inr ⟨"data: \x7b\"type\":\"content\",\"content\":\"Hel\"\x7d".toList, by decide⟩)).2

/-! ## C14: the `data: ` prefix -/

theorem jsTrim_eq (t : Text) :
    jsTrim t = (t.dropWhile isJsSpace).rdropWhile isJsSpace := rfl

theorem jsTrim_getLast (t : Text) (c : Char) (h : (jsTrim t).getLast? = some c) :
    isJsSpace c = false := by
  have hne : (t.dropWhile isJsSpace).rdropWhile isJsSpace ≠ [] := by
    intro e
    rw [jsTrim_eq, e] at h
    exact Option.noConfusion h
  have hl := List.rdropWhile_last_not isJsSpace (t.dropWhile isJsSpace) hne
  rw [jsTrim_eq, List.getLast?_eq_getLast _ hne] at h
  injection h with h
  rw [h] at hl
  simpa using hl

theorem jsTrim_eq_nil_iff (t : Text) : jsTrim t = [] ↔ ∀ c ∈ t, isJsSpace c = true := by
  rw [jsTrim_eq, List.rdropWhile_eq_nil_iff]
  constructor
  · intro h
    have hd : t.dropWhile isJsSpace = [] := by
      by_contra hne
      have h1 := List.head_dropWhile_not isJsSpace t hne
      have h2 := h _ (List.head_mem hne)
      rw [h1] at h2
      exact Bool.noConfusion h2
    exact List.dropWhile_eq_nil_iff.mp hd
  · intro h x hx
    exact h x ((List.dropWhile_sublist isJsSpace).subset hx)

theorem payloadOf_prefixed (line rest : Text)
    (h : jsTrim line = "data: ".toList ++ rest) :
    jsTrim rest ≠ [] ∧ payloadOf line = some (jsTrim rest) := by
  have hrest : rest ≠ [] := by
    intro e
    subst e
    have := jsTrim_getLast line ' ' (by rw [h]; rfl)
    exact absurd this (by decide)
  have htrim : jsTrim rest ≠ [] := by
    intro e
    rw [jsTrim_eq_nil_iff] at e
    obtain ⟨c, hc⟩ : ∃ c, rest.getLast? = some c := by
      cases hl : rest.getLast? with
      | none => exact absurd (List.getLast?_eq_none_iff.mp hl) hrest
      | some c => exact ⟨c, rfl⟩
    have h1 := jsTrim_getLast line c (by rw [h, List.getLast?_append_of_ne_nil _ hrest, hc])
    have h2 := e c (List.mem_of_getLast?_eq_some hc)
    rw [h1] at h2
    exact Bool.noConfusion h2
  refine ⟨htrim, ?_⟩
  have hdrop : ("data: ".toList ++ rest).drop 6 = rest := List.drop_left' rfl
  have hpre : "data: ".toList.isPrefixOf ("data: ".toList ++ rest) = true := by
    rw [List.isPrefixOf_iff_prefix]
    exact List.prefix_append _ _
  have hne : ("data: ".toList ++ rest).isEmpty = false := rfl
  have hne2 : (jsTrim rest).isEmpty = false := by
    cases hj : jsTrim rest with
    | nil => exact absurd hj htrim
    | cons c cs => rfl
  unfold payloadOf
  simp only [h, hne, hpre, hdrop, hne2, Bool.false_eq_true, if_false, if_true]

theorem jsTrim_prefix_only (ws : Text) (h : ∀ c ∈ ws, isJsSpace c = true) :
    jsTrim ("data: ".toList ++ ws) = "data:".toList := by
  have h1 : ("data: ".toList ++ ws).dropWhile isJsSpace = "data: ".toList ++ ws := rfl
  have h2 : ∀ c ∈ ws.reverse, isJsSpace c = true := fun c hc => h c (List.mem_reverse.mp hc)
  rw [jsTrim_eq, h1, List.rdropWhile, List.reverse_append, List.dropWhile_append_of_pos h2]
  rfl

/-- C14. A record whose trimmed text starts with `data: ` is decoded as the rest of that
text, trimmed again: the prefix is removed once, whatever follows it (a second `data: `
stays in the payload), the payload is never empty, and the record yields what the same
record without the prefix yields when that one is not prefixed itself.  A record that is
empty after trimming yields no parsed value and changes nothing; so does a record made
of the prefix and whitespace only, which goes to `JSON.parse` as `data:` and is rejected
there. -/
theorem C14_prefix_stripped_once (parse : Text → Option Json) (clock : Nat → Text) (idx : Nat)
    (line rest : Text) (h : jsTrim line = "data: ".toList ++ rest) :
    jsTrim rest ≠ [] ∧ payloadOf line = some (jsTrim rest) ∧
    lineFrame parse line = parse (jsTrim rest) ∧
    ("data: ".toList.isPrefixOf (jsTrim rest) = false →
      lineFrame parse line = lineFrame parse rest) ∧
    (∀ (l : Text) (a : Acc), jsTrim l = [] →
      lineFrame parse l = none ∧ processLine parse clock idx a l = a) ∧
    (∀ (ws : Text) (a : Acc), (∀ c ∈ ws, isJsSpace c = true) → parse "data:".toList = none →
      lineFrame parse ("data: ".toList ++ ws) = none ∧
        processLine parse clock idx a ("data: ".toList ++ ws) = a) := by
  obtain ⟨h1, h2⟩ := payloadOf_prefixed line rest h
  have hempty : ∀ l : Text, jsTrim l = [] → lineFrame parse l = none := by
    intro l hl
    simp [lineFrame, payloadOf, hl]
  have hws : ∀ ws : Text, (∀ c ∈ ws, isJsSpace c = true) → parse "data:".toList = none →
      lineFrame parse ("data: ".toList ++ ws) = none := by
    intro ws hw hp
    have hpay : payloadOf ("data: ".toList ++ ws) = some "data:".toList := by
      unfold payloadOf
      rw [jsTrim_prefix_only ws hw]
      rfl
    unfold lineFrame
    rw [hpay]
    exact hp
  refine ⟨h1, h2, ?_, ?_, ?_, ?_⟩
  · unfold lineFrame
    rw [h2]
  · intro hp
    have hrest : payloadOf rest = some (jsTrim rest) := by
      have hne : (jsTrim rest).isEmpty = false := by
        cases hj : jsTrim rest with
        | nil => exact absurd hj h1
        | cons c cs => rfl
      unfold payloadOf
      simp only [hne, hp, Bool.false_eq_true, if_false]
    unfold lineFrame
    rw [h2, hrest]
  · intro l a hl
    refine ⟨hempty l hl, ?_⟩
    rw [processLine_eq, hempty l hl]
  · intro ws a hw hp
    refine ⟨hws ws hw hp, ?_⟩
    rw [processLine_eq, hws ws hw hp]

/-- A prefixed `content` line with blanks around it. -/
theorem C14_prefix_stripped_once_witness :
    lineFrame wireParse "  data:  \x7b\"type\":\"content\",\"content\":\"Hel\"\x7d \r".toList =
      wireParse (jsTrim " \x7b\"type\":\"content\",\"content\":\"Hel\"\x7d".toList) :=
  (C14_prefix_stripped_once wireParse tickClock 1
    "  data:  \x7b\"type\":\"content\",\"content\":\"Hel\"\x7d \r".toList
    " \x7b\"type\":\"content\",\"content\":\"Hel\"\x7d".toList (by decide)).2.2.1

/-! ## C21 and C22: the failure path of the non-streaming handler, the loading flag -/

/-- C21. When the non-streaming request fails (the request is rejected, or the response is
`null` and cannot be read), the transcript after `handleNormalResponse` is the transcript
from before the exchange: the user message is removed and no assistant message is added. -/
theorem C21_normal_failure_restores_transcript (clock : Nat → Text) (rendered : ChatState)
    (message : Text) (s : ChatState) :
    (∀ e : AxiosError,
      (handleNormalResponse clock rendered message (.rejected e) s).messages = s.messages) ∧
    (handleNormalResponse clock rendered message (.resolved Json.null) s).messages =
      s.messages := by
  constructor
  · intro e
    simp only [handleNormalResponse, tryNormal, interceptError]
    split
    · split <;> simp [catchBlock, notifyError, beginNormal, pushMessage, List.dropLast_concat]
    · simp [catchBlock, notifyError, beginNormal, pushMessage, List.dropLast_concat]
  · simp [handleNormalResponse, tryNormal, catchBlock, notifyError, beginNormal, pushMessage,
      List.dropLast_concat]

/-- C22. Whatever the mode, the outcome of the request and the content of the body, the
loading flag is false once `handleStreamResponse` or `handleNormalResponse` has
returned, and so after any exchange and any sequence of exchanges that is not empty. -/
theorem C22_loading_cleared (parse : Text → Option Json) (clock : Nat → Text)
    (rendered : ChatState) (message : Text) (s : ChatState) :
    (∀ net : FetchResult,
      (handleStreamResponse parse clock rendered message net s).isLoading = false) ∧
    (∀ net : ChatResult,
      (handleNormalResponse clock rendered message net s).isLoading = false) ∧
    (∀ e : Exchange, (runExchange parse clock s e).isLoading = false) :=
  ⟨fun _ => rfl, fun _ => rfl, fun e => by cases e <;> rfl⟩

/-! ## C23: `handleSend` -/

/-- C23. `handleSend` returns the state unchanged, whatever the requests would bring, when
the loading flag of its render is set or its input is blank; otherwise it clears the
input and runs exactly one handler with the trimmed input as the message: the streaming
one when the mode is `stream` (the outcome of the other request plays no part), the
non-streaming one otherwise. -/
theorem C23_send_guard (parse : Text → Option Json) (clock : Nat → Text)
    (rendered : ChatState) (streamNet : FetchResult) (chatNet : ChatResult) (s : ChatState) :
    (rendered.isLoading = true ∨ jsTrim rendered.inputValue = [] →
      handleSend parse clock rendered streamNet chatNet s = s) ∧
    (rendered.isLoading = false → jsTrim rendered.inputValue ≠ [] →
      rendered.mode = .stream →
      handleSend parse clock rendered streamNet chatNet s =
        handleStreamResponse parse clock rendered (jsTrim rendered.inputValue) streamNet
          { s with inputValue := [] }) ∧
    (rendered.isLoading = false → jsTrim rendered.inputValue ≠ [] →
      rendered.mode = .normal →
      handleSend parse clock rendered streamNet chatNet s =
        handleNormalResponse clock rendered (jsTrim rendered.inputValue) chatNet
          { s with inputValue := [] }) := by
  refine ⟨?_, ?_, ?_⟩
  · intro h
    unfold handleSend
    rcases h with h | h
    · simp [h]
    · simp [h]
  · intro h1 h2 h3
    have hne : (jsTrim rendered.inputValue).isEmpty = false := by
      cases hj : jsTrim rendered.inputValue with
      | nil => exact absurd hj h2
      | cons c cs => rfl
    unfold handleSend
    simp [h1, hne, h3]
  · intro h1 h2 h3
    have hne : (jsTrim rendered.inputValue).isEmpty = false := by
      cases hj : jsTrim rendered.inputValue with
      | nil => exact absurd hj h2
      | cons c cs => rfl
    unfold handleSend
    simp [h1, hne, h3]

/-! ## C25: what the rollback removes -/

/-- C25. The `catch` block of the streaming handler removes exactly the last entry of the
transcript.  At every failure of an exchange that entry is the in-progress assistant
entry, which was appended before the `try` block, so the transcript ends as the old
transcript followed by the user entry: no assistant entry of the failed exchange
remains. -/
theorem C25_rollback_removes_last_entry (parse : Text → Option Json) (clock : Nat → Text)
    (message : Text) (status : Nat) (chunks : List (List Nat)) (s x : ChatState) :
    (catchBlock x).messages = x.messages.dropLast ∧
    (∃ ts, (exchangeLoop parse clock message chunks s).2.vars.ui.messages =
      s.messages ++ [some (userEntry clock message s),
        some ⟨.assistant,
          .str (exchangeLoop parse clock message chunks s).2.vars.assistantContent, ts,
          some true⟩]) ∧
    (handleStreamResponse parse clock s message (.response status (some ⟨chunks, .failed⟩))
        s).messages = s.messages ++ [some (userEntry clock message s)] ∧
    (handleStreamResponse parse clock s message (.response status none) s).messages =
      s.messages ++ [some (userEntry clock message s)] ∧
    (handleStreamResponse parse clock s message .rejected s).messages =
      s.messages ++ [some (userEntry clock message s)] := by
  have hf := failed_messages parse clock message s
  exact ⟨rfl, exchangeLoop_inFlight parse clock message chunks s, hf.2.2 status chunks,
    hf.2.1 status, hf.1⟩

/-! ## C26: the retained buffer -/

theorem splitNewline_spec (t : Text) :
    ∃ records rest, splitNewline t = records ++ [rest] ∧ '\n' ∉ rest ∧
      (∀ r ∈ records, '\n' ∉ r) ∧
      t = (records.map (fun r => r ++ ['\n'])).flatten ++ rest := by
  induction t with
  | nil => exact ⟨[], [], rfl, by simp, by simp, rfl⟩
  | cons c cs ih =>
    obtain ⟨records, rest, hs, hr, hrs, ht⟩ := ih
    by_cases hc : c = '\n'
    · refine ⟨[] :: records, rest, by simp [splitNewline, hc, hs], hr, ?_, ?_⟩
      · intro r hr'
        rcases List.mem_cons.mp hr' with e | e
        · rw [e]; simp
        · exact hrs r e
      · rw [hc]
        simp only [List.map_cons, List.flatten_cons, List.nil_append, List.cons_append]
        rw [← ht]
    · cases records with
      | nil =>
        refine ⟨[], c :: rest, by simp [splitNewline, hc, hs], ?_, by simp, ?_⟩
        · intro hm
          rcases List.mem_cons.mp hm with e | e
          · exact hc e.symm
          · exact hr e
        · simp only [List.map_nil, List.flatten_nil, List.nil_append] at ht ⊢
          rw [ht]
      | cons r rs =>
        refine ⟨(c :: r) :: rs, rest, by simp [splitNewline, hc, hs], hr, ?_, ?_⟩
        · intro x hx
          rcases List.mem_cons.mp hx with e | e
          · rw [e]
            intro hm
            rcases List.mem_cons.mp hm with e2 | e2
            · exact hc e2.symm
            · exact hrs r (by simp) e2
          · exact hrs x (by simp [e])
        · simp only [List.map_cons, List.flatten_cons, List.cons_append] at ht ⊢
          rw [← ht]

theorem popOrEmpty_concat (records : List Text) (rest : Text) :
    popOrEmpty (records ++ [rest]) = rest := by
  cases rest <;> simp [popOrEmpty]

/-- C26. After a chunk is processed, the text `previous buffer + decoded chunk` is the
records handed to the loop body, each followed by a newline, in order, followed by the
retained buffer; neither a record nor the retained buffer holds a newline, so the
buffer is the text after the last newline and only newline-terminated lines are
processed. -/
theorem C26_retained_buffer (parse : Text → Option Json) (clock : Nat → Text) (idx : Nat)
    (st : Rx × Acc) (value : List Nat) :
    ∃ records : List Text,
      splitNewline (st.1.buffer ++ (decodeChunk st.1.decoder value).2) =
        records ++ [(processChunk parse clock idx st value).1.buffer] ∧
      '\n' ∉ (processChunk parse clock idx st value).1.buffer ∧
      (∀ r ∈ records, '\n' ∉ r) ∧
      st.1.buffer ++ (decodeChunk st.1.decoder value).2 =
        (records.map (fun r => r ++ ['\n'])).flatten ++
          (processChunk parse clock idx st value).1.buffer ∧
      (processChunk parse clock idx st value).2 =
        records.foldl (processLine parse clock idx) st.2 := by
  obtain ⟨records, rest, hs, hr, hrs, ht⟩ :=
    splitNewline_spec (st.1.buffer ++ (decodeChunk st.1.decoder value).2)
  have hb : (processChunk parse clock idx st value).1.buffer = rest := by
    simp only [processChunk, feedText, hs, popOrEmpty_concat]
  have ha : (processChunk parse clock idx st value).2 =
      records.foldl (processLine parse clock idx) st.2 := by
    simp only [processChunk, feedText, hs, List.dropLast_concat]
  rw [hb]
  exact ⟨records, hs, hr, hrs, ht, ha⟩

/-- `handleSend` on the input `  hello ` in non-streaming mode. -/
theorem C23_send_guard_witness :
    handleSend wireParse tickClock typedNormal .rejected (.resolved replyWithSession)
        typedNormal =
      handleNormalResponse tickClock typedNormal "hello".toList (.resolved replyWithSession)
        { typedNormal with inputValue := [] } :=
  (C23_send_guard wireParse tickClock typedNormal .rejected (.resolved replyWithSession)
    typedNormal).2.2 rfl (by decide) rfl

/-! ## C28: events between the steps of an exchange -/

theorem steps_frames (clock : Nat → Text) (r : ChatState) (frames : List Json) :
    ∀ a : Vars, steps clock (frames.map Event.frame) (.streaming r a) =
      .streaming r (applyFrames clock (r.messages.length + 1) frames a) := by
  induction frames with
  | nil => intro a; rfl
  | cons v vs ih =>
    intro a
    have := ih (applyFrame clock (r.messages.length + 1) v a)
    simp only [steps, List.map_cons, List.foldl_cons, applyFrames] at this ⊢
    exact this

/-- The events of an undisturbed exchange, one parsed value after the other and then the end
of the body, lead to the state `handleStreamResponse` returns. -/
theorem steps_complete (parse : Text → Option Json) (clock : Nat → Text)
    (rendered s : ChatState) (message : Text) (status : Nat) (chunks : List (List Nat)) :
    steps clock
        ((readLoop parse clock (rendered.messages.length + 1) chunks
            (loopInit rendered (beginExchange clock message s))).2.frames.map Event.frame
          ++ [Event.endOfStream])
        (.streaming rendered
          { assistantContent := [], newSessionId := rendered.sessionId,
            ui := beginExchange clock message s }) =
      .idle (handleStreamResponse parse clock rendered message
        (.response status (some ⟨chunks, .done⟩)) s) := by
  have hv := readLoop_vars parse clock (rendered.messages.length + 1) chunks rendered
    (beginExchange clock message s)
  have hsplit : ∀ (es : List Event) (w : Widget),
      steps clock (es ++ [Event.endOfStream]) w =
        step clock (steps clock es w) Event.endOfStream := by
    intro es w
    simp [steps]
  rw [hsplit, steps_frames, ← hv]
  rfl

theorem setAt_length_of_lt (ms : List (Option Message)) (idx : Nat) (m : Message)
    (h : idx < ms.length) : (setAt ms idx m).length = ms.length := by
  induction ms generalizing idx with
  | nil => exact absurd h (Nat.not_lt_zero _)
  | cons x xs ih =>
    cases idx with
    | zero => rfl
    | succ i =>
      have := ih i (Nat.lt_of_succ_lt_succ h)
      simp [setAt, this]

theorem setAt_all_of_lt (ms : List (Option Message)) (idx : Nat) (m : Message)
    (h : idx < ms.length) (hall : allMessages ms = true) :
    allMessages (setAt ms idx m) = true := by
  induction ms generalizing idx with
  | nil => exact absurd h (Nat.not_lt_zero _)
  | cons x xs ih =>
    simp only [allMessages, List.all_cons, Bool.and_eq_true] at hall
    cases idx with
    | zero => simp [setAt, allMessages, hall.2]
    | succ i =>
      have := ih i (Nat.lt_of_succ_lt_succ h) hall.2
      simp only [allMessages] at this
      simp [setAt, allMessages, hall.1, this]

theorem writeAssistant_keeps (clock : Nat → Text) (idx : Nat) (content : Text) (b : Bool)
    (s : ChatState) (h : idx < s.messages.length) (hall : allMessages s.messages = true) :
    (writeAssistant clock idx content b s).messages.length = s.messages.length ∧
      allMessages (writeAssistant clock idx content b s).messages = true :=
  ⟨setAt_length_of_lt _ _ _ h, setAt_all_of_lt _ _ _ h hall⟩

theorem applyFrame_keeps (clock : Nat → Text) (idx : Nat) (v : Json) (a : Vars)
    (h : idx < a.ui.messages.length) (hall : allMessages a.ui.messages = true) :
    (applyFrame clock idx v a).ui.messages.length = a.ui.messages.length ∧
      allMessages (applyFrame clock idx v a).ui.messages = true := by
  by_cases hv : v = Json.null
  · subst hv; exact ⟨rfl, hall⟩
  · rw [applyFrame_of_ne_null clock idx v a hv]
    have hb := (adoptSession_sameTranscript v a).2.1
    rcases dispatch_cases clock idx v (adoptSession v a) with e | ⟨t, e⟩ | ⟨n, e⟩
    · rw [e, hb]; exact ⟨rfl, hall⟩
    · rw [e]
      have := writeAssistant_keeps clock idx ((adoptSession v a).assistantContent ++ t) true
        (adoptSession v a).ui (by rw [hb]; exact h) (by rw [hb]; exact hall)
      rw [hb] at this
      exact this
    · rw [e]
      show (adoptSession v a).ui.messages.length = _ ∧ allMessages (adoptSession v a).ui.messages = _
      rw [hb]; exact ⟨rfl, hall⟩

/-- Every event but a clear during an exchange keeps the write index at the last entry and
every position of the transcript filled. -/
theorem step_writesAtLast (clock : Nat → Text) (w : Widget) (e : Event)
    (h : WritesAtLast w) (hclear : ∀ r a, w = .streaming r a → e ≠ .clear) :
    WritesAtLast (step clock w e) := by
  cases w with
  | idle s =>
    cases e with
    | send message =>
      simp only [step]
      split
      · refine ⟨by simp [beginExchange, pushMessage], ?_⟩
        have hs : allMessages s.messages = true := h
        simp only [allMessages] at hs
        simp [beginExchange, pushMessage, allMessages, hs]
      · exact h
    | clear =>
      simp only [step]
      split
      · rfl
      · exact h
    | frame v => exact h
    | endOfStream => exact h
    | failure => exact h
  | streaming r a =>
    obtain ⟨hlen, hall⟩ := h
    cases e with
    | send message => exact ⟨hlen, hall⟩
    | clear => exact absurd rfl (hclear r a rfl)
    | frame v =>
      have := applyFrame_keeps clock (r.messages.length + 1) v a (by omega) hall
      exact ⟨this.1.trans hlen, this.2⟩
    | endOfStream =>
      have := writeAssistant_keeps clock (r.messages.length + 1) (finalText a.assistantContent)
        false a.ui (by omega) hall
      show allMessages (finalize clock r (r.messages.length + 1) a).messages = true
      unfold finalize
      split
      · exact this.2
      · exact this.2
    | failure =>
      show allMessages (catchBlock a.ui).messages = true
      simp only [allMessages, List.all_eq_true] at hall ⊢
      intro x hx
      exact hall x (List.mem_of_mem_dropLast hx)

/-- C28, the code at the failing input. With the window open the user sends `hi` in streaming
mode and clicks the clear button, which is enabled, while the exchange is in flight;
the transcript is then empty, and the next frame update writes at index 1, past its
end: position 0 holds no message, during the stream and after its end. -/
theorem C28_clear_in_flight_breaks_index :
    clearEnabled (steps tickClock [.send "hi".toList] (.idle opened)).ui = true ∧
    (steps tickClock [.send "hi".toList, .clear] (.idle opened)).ui.messages = [] ∧
    (steps tickClock [.send "hi".toList, .clear,
        .frame (frameOf [("type", "content"), ("content", "Hel")])] (.idle opened)).ui.messages =
      [none, some ⟨.assistant, .str "Hel".toList, tickClock 2, some true⟩] ∧
    (steps tickClock [.send "hi".toList, .clear,
        .frame (frameOf [("type", "content"), ("content", "Hel")]), .endOfStream]
        (.idle opened)).ui.messages =
      [none, some ⟨.assistant, .str "Hel".toList, tickClock 3, some false⟩] ∧
    allMessages (steps tickClock [.send "hi".toList, .clear,
        .frame (frameOf [("type", "content"), ("content", "Hel")]), .endOfStream]
        (.idle opened)).ui.messages = false :=
  ⟨rfl, rfl, rfl, rfl, rfl⟩

/-! ## C24: the evaluation payload -/

/-- C24. When the trimmed text of the payload does not parse, `handleEvaluateSubmit` makes
no call of `clientAPI.evaluate`, whatever the request would bring, and its only effect
is the notification of a JSON format error; the validator of the field rejects a value
exactly when the value is not empty and its trimmed text does not parse. -/
theorem C24_invalid_payload_not_sent (parse : Text → Option Json)
    (dialogError : Json → Option Text) (rendered : PageState) (houseData : Text)
    (net : EvaluateResult) (s : PageState) (h : parse (jsTrim houseData) = none) :
    (handleEvaluateSubmit parse dialogError rendered houseData net s).evaluateCalls =
      s.evaluateCalls ∧
    handleEvaluateSubmit parse dialogError rendered houseData net s =
      { s with notices := s.notices ++
          [Notice.error (.str "JSON 格式错误，请检查输入的数据格式是否正确".toList)] } ∧
    (∀ value : Text, houseDataValid parse value = false ↔
      (value ≠ [] ∧ parse (jsTrim value) = none)) := by
  refine ⟨?_, ?_, ?_⟩
  · simp [handleEvaluateSubmit, h]
  · simp [handleEvaluateSubmit, h]
  · intro value
    unfold houseDataValid
    cases value with
    | nil => simp
    | cons c cs =>
      cases hp : parse (jsTrim (c :: cs)) <;> simp

/-- The payload `oops, not json`. -/
theorem C24_invalid_payload_not_sent_witness :
    (handleEvaluateSubmit wireParse (fun _ => none) onePage "oops, not json".toList
      (.resolved Json.null) onePage).evaluateCalls = onePage.evaluateCalls :=
  (C24_invalid_payload_not_sent wireParse (fun _ => none) onePage "oops, not json".toList
    (.resolved Json.null) onePage rfl).1

/-! ## C27: the model list after training -/

theorem findIndex_some {α : Type} (p : α → Bool) (l : List α) :
    ∀ i, findIndex p l = some i → ∃ x, l[i]? = some x ∧ p x = true := by
  induction l with
  | nil => intro i h; exact Option.noConfusion h
  | cons x xs ih =>
    intro i h
    unfold findIndex at h
    by_cases hp : p x = true
    · simp only [hp, if_true, Option.some.injEq] at h
      subst h
      exact ⟨x, by simp, hp⟩
    · simp only [hp, Bool.false_eq_true, if_false] at h
      cases hf : findIndex p xs with
      | none => rw [hf] at h; exact Option.noConfusion h
      | some j =>
        rw [hf] at h
        simp only [Option.map_some', Option.some.injEq] at h
        subst h
        obtain ⟨y, hy, hpy⟩ := ih j hf
        exact ⟨y, by simpa using hy, hpy⟩

theorem findIndex_none {α : Type} (p : α → Bool) (l : List α) :
    findIndex p l = none ↔ ∀ x ∈ l, p x = false := by
  induction l with
  | nil => simp [findIndex]
  | cons x xs ih =>
    unfold findIndex
    by_cases hp : p x = true
    · simp [hp]
    · have hp' : p x = false := by simpa using hp
      simp [hp', ih]

/-- C27. A training response that carries a model upserts the model list by id: when a
model of the list has the id of the new one, the new model takes the place of one of
them, and the length of the list and every other position stay as they were; when none
has, the new model comes first and the old list follows. -/
theorem C27_model_upsert (newModel : Model) (s : PageState) :
    ((∃ m ∈ s.models, m.id = newModel.id) →
      ∃ i old, s.models[i]? = some old ∧ old.id = newModel.id ∧
        (updateModelsAfterTraining (some newModel) s).models = s.models.set i newModel ∧
        (updateModelsAfterTraining (some newModel) s).models[i]? = some newModel ∧
        (updateModelsAfterTraining (some newModel) s).models.length = s.models.length ∧
        ∀ j, j ≠ i →
          (updateModelsAfterTraining (some newModel) s).models[j]? = s.models[j]?) ∧
    ((∀ m ∈ s.models, m.id ≠ newModel.id) →
      (updateModelsAfterTraining (some newModel) s).models = newModel :: s.models) := by
  constructor
  · rintro ⟨m, hm, hid⟩
    cases hf : findIndex (fun m => m.id == newModel.id) s.models with
    | none =>
      have := (findIndex_none _ _).mp hf m hm
      simp [hid] at this
    | some i =>
      obtain ⟨old, hold, hp⟩ := findIndex_some _ _ i hf
      have hlt : i < s.models.length := by
        rcases Nat.lt_or_ge i s.models.length with h | h
        · exact h
        · rw [List.getElem?_eq_none h] at hold
          exact Option.noConfusion hold
      have hup : (updateModelsAfterTraining (some newModel) s).models =
          s.models.set i newModel := by
        simp [updateModelsAfterTraining, upsertModel, hf]
      refine ⟨i, old, hold, by simpa using hp, hup, ?_, ?_, ?_⟩
      · rw [hup]; simp [hlt]
      · rw [hup]; simp
      · intro j hj
        rw [hup, List.getElem?_set_ne (Ne.symm hj)]
  · intro h
    have hf : findIndex (fun m => m.id == newModel.id) s.models = none := by
      rw [findIndex_none]
      intro x hx
      simpa using h x hx
    simp [updateModelsAfterTraining, upsertModel, hf]

/-! ## C29: the selection of clients -/

theorem toggleSelect_valid (record : Client) (s : PageState) (h : SelectionValid s)
    (hr : record ∈ s.clients) : SelectionValid (toggleSelect s record s) ∧
      (toggleSelect s record s).clients = s.clients := by
  have hcl : (toggleSelect s record s).clients = s.clients := by
    unfold toggleSelect
    split
    · rfl
    · split <;> rfl
  refine ⟨?_, hcl⟩
  intro id hid
  rw [hcl]
  unfold toggleSelect at hid
  by_cases hm : idTruthy record.modelId = true
  · by_cases hc : s.selectedClients.contains record.id = true
    · simp only [hm, hc, Bool.not_true, Bool.false_eq_true, if_false, if_true] at hid
      exact h id (List.mem_of_mem_filter hid)
    · simp only [hm, hc, Bool.not_true, Bool.false_eq_true, if_false] at hid
      rcases List.mem_append.mp hid with h1 | h1
      · exact h id h1
      · rw [List.mem_singleton] at h1
        exact ⟨record, hr, h1.symm, hm⟩
  · simp only [hm, Bool.not_false, if_true] at hid
    exact h id hid

theorem toggles_valid (records : List Client) :
    ∀ s : PageState, SelectionValid s →
      SelectionValid (pageSteps (records.map PageEvent.toggle) s) ∧
        (pageSteps (records.map PageEvent.toggle) s).clients = s.clients := by
  induction records with
  | nil => intro s h; exact ⟨h, rfl⟩
  | cons r rs ih =>
    intro s h
    have hstep : SelectionValid (pageStep s (.toggle r)) ∧
        (pageStep s (.toggle r)).clients = s.clients := by
      simp only [pageStep]
      split
      · rename_i hr
        exact toggleSelect_valid r s h hr
      · exact ⟨h, rfl⟩
    have := ih (pageStep s (.toggle r)) hstep.1
    simp only [pageSteps, List.map_cons, List.foldl_cons] at this ⊢
    exact ⟨this.1, this.2.trans hstep.2⟩

theorem loadClients_selected (net : Listing) (s : PageState) :
    (loadClients net s).selectedClients = s.selectedClients := by
  cases net <;> rfl

/-- C29 (amended). Clicks on the checkboxes alone, on a list that does not change, keep every
selected id the id of a client of the list with a model bound; the deletion of a client,
a change of a model binding and a reload of the list change the list and leave the
selection as it is; a submitted evaluation whose house data parses sends one request, with
the selection of the render as it is. -/
theorem C29_selection_follows_toggles_only (s : PageState) (h : SelectionValid s) :
    (∀ records : List Client,
      SelectionValid (pageSteps (records.map PageEvent.toggle) s) ∧
        (pageSteps (records.map PageEvent.toggle) s).clients = s.clients) ∧
    (∀ e : PageEvent, e.isToggle = false →
      (pageStep s e).selectedClients = s.selectedClients) ∧
    (∀ (parse : Text → Option Json) (dialogError : Json → Option Text) (houseData : Text)
        (parsed : Json) (net : EvaluateResult) (x : PageState),
      parse (jsTrim houseData) = some parsed →
      (handleEvaluateSubmit parse dialogError s houseData net x).evaluateCalls =
        x.evaluateCalls ++ [EvaluateCall.mk s.selectedClients parsed]) := by
  refine ⟨fun records => toggles_valid records s h, ?_, ?_⟩
  · intro e he
    cases e with
    | toggle r => exact absurd he (by simp [PageEvent.isToggle])
    | delete id ack reload =>
      cases ack with
      | resolved => exact loadClients_selected reload _
      | rejected e => rfl
    | bindModel cid mid ack reload =>
      cases ack with
      | resolved => exact loadClients_selected reload _
      | rejected e => rfl
    | reload net => exact loadClients_selected net s
  · intro parse dialogError houseData parsed net x hp
    unfold handleEvaluateSubmit
    simp only [hp]
    cases net with
    | rejected e => rfl
    | resolved response => cases hd : dialogError response <;> simp only [hd]

/-- Two clicks on the only client of the page: selected, then not. -/
theorem C29_selection_follows_toggles_only_witness :
    SelectionValid (pageSteps
      [.toggle ⟨1, "a".toList, none, some 7⟩, .toggle ⟨1, "a".toList, none, some 7⟩] onePage) :=
  ((C29_selection_follows_toggles_only onePage
    (fun _ hid => absurd hid (List.not_mem_nil _))).1
    [⟨1, "a".toList, none, some 7⟩, ⟨1, "a".toList, none, some 7⟩]).1

/-- C29 as stated fails when a selected client is deleted, or loses its model: the client is
selected, the list is reloaded without it (or with it and no model), the id 1 stays
selected, and the next evaluation request names it. -/
theorem C29_counterexample :
    (pageSteps [.toggle ⟨1, "a".toList, none, some 7⟩, .delete 1 .resolved (.resolved [])]
      onePage).selectedClients = [1] ∧
    (pageSteps [.toggle ⟨1, "a".toList, none, some 7⟩, .delete 1 .resolved (.resolved [])]
      onePage).clients = [] ∧
    ¬ SelectionValid (pageSteps
      [.toggle ⟨1, "a".toList, none, some 7⟩, .delete 1 .resolved (.resolved [])] onePage) ∧
    ¬ SelectionValid (pageSteps
      [.toggle ⟨1, "a".toList, none, some 7⟩,
        .bindModel 1 none .resolved (.resolved [⟨1, "a".toList, none, none⟩])] onePage) ∧
    (handleEvaluateSubmit wireParse (fun _ => none)
      (pageSteps [.toggle ⟨1, "a".toList, none, some 7⟩, .delete 1 .resolved (.resolved [])]
        onePage)
      "\x7b\"type\":\"ping\"\x7d".toList (.resolved Json.null)
      (pageSteps [.toggle ⟨1, "a".toList, none, some 7⟩, .delete 1 .resolved (.resolved [])]
        onePage)).evaluateCalls.map EvaluateCall.clientIds = [[1]] := by
  refine ⟨rfl, rfl, ?_, ?_, rfl⟩
  · intro h
    obtain ⟨c, hc, _⟩ := h 1 (by decide)
    exact absurd hc (List.not_mem_nil _)
  · intro h
    obtain ⟨c, hc, hid, hm⟩ := h 1 (by decide)
    have hc' : c ∈ [(⟨1, "a".toList, none, none⟩ : Client)] := hc
    rw [List.mem_singleton] at hc'
    rw [hc'] at hm
    exact absurd hm (by decide)

end AgentChat
